import Mathlib

/-!
# rs-flow-demo: verification of the value/schema kernel, plan codec, planner and processors

A shallow embedding of the rs-flow-demo stream-processing engine, translated
from the repository's Rust sources:

* `src/datatypes/src/value.rs`, `datatypes.rs`, `types/*.rs`,
  `schema/schema_struct.rs`, `schema/column_schema.rs` — the value/schema kernel;
* `src/flow/src/tuple.rs` — JSON ingestion into tuples;
* `src/flow/src/plan_cache.rs` — the plan snapshot codec (bincode framing);
* `src/flow/src/planner/physical_plan_builder.rs` — logical→physical lowering;
* `src/flow/src/processor/filter_processor.rs`, `stream_processor.rs` — the
  filter routine and its control-signal discipline;
* `src/storage/src/lib.rs` — the metadata store.

Machine integers are modelled as `Int`/`Nat`; `f32`/`f64` values are modelled
by their IEEE-754 bit patterns (a `Nat` holding the raw bits), on which NaN
tests, IEEE equality, truncating casts and `to_bits` are defined exactly.
External crates (serde/bincode, serde_json, sqlparser) are modelled by their
documented serialization behaviour where the repository relies on them.
-/

namespace RsFlow

/-- A Rust `String` modelled as its UTF-8 byte sequence.  bincode writes those
bytes with a `u64` length prefix and reads them back verbatim, so the byte-list
view is exact for every value a Rust `String` can hold. -/
abbrev RStr := List Nat

/-! ## IEEE-754 bit-pattern model of `f64` and `f32`

`value.rs` and the cast code only use `is_nan`, `== 0.0`, `to_bits`, IEEE
equality and the saturating `as` casts, all of which are exact functions of the
bit pattern. -/

/-- An `f64` value, represented by its raw IEEE-754 bit pattern
(as returned by `f64::to_bits`). -/
structure F64 where
  bits : Nat
deriving DecidableEq, Repr

/-- An `f32` value, represented by its raw IEEE-754 bit pattern. -/
structure F32 where
  bits : Nat
deriving DecidableEq, Repr

/-- Sign bit of an `f64` (bit 63). -/
def f64Sign (x : F64) : Bool := x.bits / 2 ^ 63 % 2 == 1

/-- Biased exponent field of an `f64` (bits 52..62). -/
def f64Exp (x : F64) : Nat := x.bits / 2 ^ 52 % 2 ^ 11

/-- Fraction field of an `f64` (bits 0..51). -/
def f64Frac (x : F64) : Nat := x.bits % 2 ^ 52

/-- `f64::is_nan`: exponent all ones with a nonzero fraction. -/
def f64IsNan (x : F64) : Bool := f64Exp x == 2047 && f64Frac x != 0

/-- An `f64` is an infinity iff the exponent is all ones and the fraction zero. -/
def f64IsInf (x : F64) : Bool := f64Exp x == 2047 && f64Frac x == 0

/-- `x == 0.0` for `f64`: every bit but the sign is zero (`+0.0` or `-0.0`). -/
def f64IsZero (x : F64) : Bool := x.bits % 2 ^ 63 == 0

/-- IEEE-754 equality on `f64`: false when either side is NaN, true for
`+0.0 == -0.0`, and otherwise bit equality (distinct bit patterns of non-NaN,
non-zero doubles always denote distinct reals). -/
def f64Eq (a b : F64) : Bool :=
  !f64IsNan a && !f64IsNan b && (a.bits == b.bits || (f64IsZero a && f64IsZero b))

/-- Sign bit of an `f32` (bit 31). -/
def f32Sign (x : F32) : Bool := x.bits / 2 ^ 31 % 2 == 1

/-- Biased exponent field of an `f32` (bits 23..30). -/
def f32Exp (x : F32) : Nat := x.bits / 2 ^ 23 % 2 ^ 8

/-- Fraction field of an `f32` (bits 0..22). -/
def f32Frac (x : F32) : Nat := x.bits % 2 ^ 23

/-- `f32::is_nan`. -/
def f32IsNan (x : F32) : Bool := f32Exp x == 255 && f32Frac x != 0

/-- `x == 0.0` for `f32`. -/
def f32IsZero (x : F32) : Bool := x.bits % 2 ^ 31 == 0

/-- IEEE-754 equality on `f32`. -/
def f32Eq (a b : F32) : Bool :=
  !f32IsNan a && !f32IsNan b && (a.bits == b.bits || (f32IsZero a && f32IsZero b))

/-- The integer part (truncation toward zero) of a finite `f64`, read off the
bit pattern: the significand `2^52 + frac` scaled by `2^(exp - 1075)`.
For a subnormal (`exp = 0`) the magnitude is below one, so the integer part is
zero. Only meaningful for finite patterns; `f64AsI64` screens NaN/∞ first. -/
def f64TruncInt (x : F64) : Int :=
  let mag : Nat :=
    if f64Exp x == 0 then 0
    else
      let sig := 2 ^ 52 + f64Frac x
      if 1075 ≤ f64Exp x then sig * 2 ^ (f64Exp x - 1075)
      else sig / 2 ^ (1075 - f64Exp x)
  if f64Sign x then -(mag : Int) else (mag : Int)

/-- `i64::MIN`. -/
def i64Min : Int := -(2 ^ 63)

/-- `i64::MAX`. -/
def i64Max : Int := 2 ^ 63 - 1

/-- Rust's saturating float-to-integer conversion `v as i64`:
NaN becomes 0, the result is the integer part of `v` truncated toward zero,
clamped to the `i64` range (infinities clamp to the corresponding bound). -/
def f64AsI64 (x : F64) : Int :=
  if f64IsNan x then 0
  else if f64IsInf x then (if f64Sign x then i64Min else i64Max)
  else min i64Max (max i64Min (f64TruncInt x))

/-- A finite `f64` has zero fractional part iff it is subnormal-zero or its
significand is divisible by the scale `2^(1075 - exp)`. NaN and infinities are
not integral (`fract()` is NaN there). -/
def f64IsIntegral (x : F64) : Bool :=
  !f64IsNan x && !f64IsInf x &&
    (if f64Exp x == 0 then f64Frac x == 0
     else 1075 ≤ f64Exp x || (2 ^ 52 + f64Frac x) % 2 ^ (1075 - f64Exp x) == 0)

/-! ## Concrete datatypes (`datatypes.rs`, `types/*.rs`, `tuple.rs`)

The variant set mirrors the one `value.rs` and `tuple.rs` are written against
(signed/unsigned 8–64-bit integers, both float widths, string, bool, struct,
list); `datatypes.rs` in the snapshot lists the subset of those variants that
its draft planner uses. A `StructType` carries an ordered field vector of
`(name, datatype, nullable)`; a `ListType` carries its element datatype. -/

mutual
/-- `ConcreteDatatype`: the schema-side parallel of `Value`. -/
inductive ConcreteDatatype where
  | float32
  | float64
  | int8
  | int16
  | int32
  | int64
  | uint8
  | uint16
  | uint32
  | uint64
  | string
  | bool
  | struct (t : StructTypeM)
  | list (t : ListTypeM)

/-- `StructType`: ordered struct field descriptors. -/
inductive StructTypeM where
  | mk (fields : StructFieldList)

/-- `ListType`: the element datatype of a list. -/
inductive ListTypeM where
  | mk (itemType : ConcreteDatatype)

/-- `StructField { name, datatype, nullable }`. -/
inductive StructFieldM where
  | mk (name : RStr) (datatype : ConcreteDatatype) (nullable : Bool)

/-- The field vector of a `StructType` (explicit list spine for easy mutual
recursion). -/
inductive StructFieldList where
  | nil
  | cons (hd : StructFieldM) (tl : StructFieldList)
end

deriving instance DecidableEq for ConcreteDatatype, StructTypeM, ListTypeM,
  StructFieldM, StructFieldList

/-! ## Values (`value.rs`) -/

mutual
/-- The tagged value union of `value.rs`. -/
inductive Value where
  | null
  | float32 (v : F32)
  | float64 (v : F64)
  | int8 (v : Int)
  | int16 (v : Int)
  | int32 (v : Int)
  | int64 (v : Int)
  | uint8 (v : Nat)
  | uint16 (v : Nat)
  | uint32 (v : Nat)
  | uint64 (v : Nat)
  | string (s : RStr)
  | bool (b : Bool)
  | struct (s : StructValue)
  | list (l : ListValue)

/-- `StructValue { items, fields }`. -/
inductive StructValue where
  | mk (items : ValueList) (fields : StructTypeM)

/-- `ListValue { items, datatype }`. -/
inductive ListValue where
  | mk (items : ValueList) (datatype : ConcreteDatatype)

/-- The item vector of a struct/list value. -/
inductive ValueList where
  | nil
  | cons (hd : Value) (tl : ValueList)
end

deriving instance DecidableEq for Value, StructValue, ListValue, ValueList

/-- List length of a `ValueList` (the `Vec` length also hashed by Rust). -/
def ValueList.length : ValueList → Nat
  | .nil => 0
  | .cons _ tl => 1 + tl.length

mutual
/-- `impl PartialEq for Value` (`value.rs:140-161`): structural equality, with
floats compared by "(both NaN) or IEEE equality". -/
def valueEq : Value → Value → Bool
  | .null, .null => true
  | .float32 a, .float32 b => (f32IsNan a && f32IsNan b) || f32Eq a b
  | .float64 a, .float64 b => (f64IsNan a && f64IsNan b) || f64Eq a b
  | .int8 a, .int8 b => a == b
  | .int16 a, .int16 b => a == b
  | .int32 a, .int32 b => a == b
  | .int64 a, .int64 b => a == b
  | .uint8 a, .uint8 b => a == b
  | .uint16 a, .uint16 b => a == b
  | .uint32 a, .uint32 b => a == b
  | .uint64 a, .uint64 b => a == b
  | .string a, .string b => a == b
  | .bool a, .bool b => a == b
  | .struct a, .struct b => structValueEq a b
  | .list a, .list b => listValueEq a b
  | _, _ => false

/-- Derived `PartialEq` on `StructValue`: items elementwise (with `Value`'s
NaN-aware equality), field descriptors structurally. -/
def structValueEq : StructValue → StructValue → Bool
  | .mk items fields, .mk items' fields' =>
    valueListEq items items' && fields == fields'

/-- Derived `PartialEq` on `ListValue`. -/
def listValueEq : ListValue → ListValue → Bool
  | .mk items dt, .mk items' dt' => valueListEq items items' && dt == dt'

/-- `Vec<Value>` equality: equal lengths and elementwise `Value` equality. -/
def valueListEq : ValueList → ValueList → Bool
  | .nil, .nil => true
  | .cons hd tl, .cons hd' tl' => valueEq hd hd' && valueListEq tl tl'
  | _, _ => false
end

/-! ### Hashing (`impl Hash for Value`, `value.rs:165-241`)

A Rust `Hasher` consumes a deterministic sequence of primitive writes; two
values receive equal hashes whenever they feed the hasher identical write
sequences. We model the write sequence itself, which is exact for every
`Hasher`. `str` hashing (bytes plus a `0xff` terminator) is one token;
`Vec` hashing writes its length then its elements; derived `Hash` on enums
writes the discriminant then the payload fields in order. -/

/-- One primitive `Hasher` write. -/
inductive HashTok where
  | u8 (n : Nat)
  | u16 (n : Nat)
  | u32 (n : Nat)
  | u64 (n : Nat)
  | i8 (v : Int)
  | i16 (v : Int)
  | i32 (v : Int)
  | i64 (v : Int)
  | len (n : Nat)
  | strBytes (s : RStr)
  | boolTok (b : Bool)
  | disc (n : Nat)
deriving DecidableEq, Repr

mutual
/-- Derived `Hash` for `ConcreteDatatype`: discriminant, then payload. -/
def hashDatatype : ConcreteDatatype → List HashTok
  | .float32 => [.disc 0]
  | .float64 => [.disc 1]
  | .int8 => [.disc 2]
  | .int16 => [.disc 3]
  | .int32 => [.disc 4]
  | .int64 => [.disc 5]
  | .uint8 => [.disc 6]
  | .uint16 => [.disc 7]
  | .uint32 => [.disc 8]
  | .uint64 => [.disc 9]
  | .string => [.disc 10]
  | .bool => [.disc 11]
  | .struct t => .disc 12 :: hashStructType t
  | .list t => .disc 13 :: hashListType t

/-- Derived `Hash` for `StructType`: its field vector. -/
def hashStructType : StructTypeM → List HashTok
  | .mk fields => .len (hashFieldListLen fields) :: hashFieldList fields

/-- Derived `Hash` for `ListType`. -/
def hashListType : ListTypeM → List HashTok
  | .mk itemType => hashDatatype itemType

/-- Derived `Hash` for `StructField`: name, datatype, nullable in order. -/
def hashStructField : StructFieldM → List HashTok
  | .mk name dt nullable => .strBytes name :: hashDatatype dt ++ [.boolTok nullable]

/-- Concatenated hash writes of a field vector. -/
def hashFieldList : StructFieldList → List HashTok
  | .nil => []
  | .cons hd tl => hashStructField hd ++ hashFieldList tl

/-- Length of a field vector (hashed as the `Vec` length prefix). -/
def hashFieldListLen : StructFieldList → Nat
  | .nil => 0
  | .cons _ tl => 1 + hashFieldListLen tl
end

/-- The float32 branch of `Value::hash`: NaN writes the `u32::MAX` sentinel,
any zero writes `0`, and other values write their raw bits. -/
def f32HashPayload (v : F32) : HashTok :=
  if f32IsNan v then .u32 (2 ^ 32 - 1)
  else if f32IsZero v then .u32 0
  else .u32 v.bits

/-- The float64 branch of `Value::hash`: NaN writes the `u64::MAX` sentinel,
any zero writes `0`, and other values write their raw bits. -/
def f64HashPayload (v : F64) : HashTok :=
  if f64IsNan v then .u64 (2 ^ 64 - 1)
  else if f64IsZero v then .u64 0
  else .u64 v.bits

mutual
/-- `impl Hash for Value`: a variant-tag byte, then the payload writes. -/
def hashValue : Value → List HashTok
  | .null => [.u8 0]
  | .float32 v => [.u8 1, f32HashPayload v]
  | .float64 v => [.u8 2, f64HashPayload v]
  | .int8 v => [.u8 3, .i8 v]
  | .int16 v => [.u8 4, .i16 v]
  | .int32 v => [.u8 5, .i32 v]
  | .int64 v => [.u8 6, .i64 v]
  | .uint8 v => [.u8 7, .u8 v]
  | .uint16 v => [.u8 8, .u16 v]
  | .uint32 v => [.u8 9, .u32 v]
  | .uint64 v => [.u8 10, .u64 v]
  | .string s => [.u8 11, .strBytes s]
  | .bool b => [.u8 12, .boolTok b]
  | .struct s => .u8 13 :: hashStructValue s
  | .list l => .u8 14 :: hashListValue l

/-- Derived `Hash` for `StructValue`: items vector, then field descriptors. -/
def hashStructValue : StructValue → List HashTok
  | .mk items fields =>
    .len items.length :: hashValueList items ++ hashStructType fields

/-- Derived `Hash` for `ListValue`: items vector, then element datatype. -/
def hashListValue : ListValue → List HashTok
  | .mk items dt => .len items.length :: hashValueList items ++ hashDatatype dt

/-- Concatenated hash writes of the item vector. -/
def hashValueList : ValueList → List HashTok
  | .nil => []
  | .cons hd tl => hashValue hd ++ hashValueList tl
end

/-- A NaN `f64` bit pattern (the canonical quiet NaN `0x7FF8_0000_0000_0000`). -/
def f64NanA : F64 := ⟨0x7FF8000000000000⟩

/-- Another NaN `f64` bit pattern (different payload bits). -/
def f64NanB : F64 := ⟨0x7FF0000000000001⟩

/-- `+0.0` as an `f64`. -/
def f64PosZero : F64 := ⟨0⟩

/-- `-0.0` as an `f64`. -/
def f64NegZero : F64 := ⟨0x8000000000000000⟩

/-- A NaN `f32` bit pattern. -/
def f32NanA : F32 := ⟨0x7FC00000⟩

/-- `+0.0` as an `f32`. -/
def f32PosZero : F32 := ⟨0⟩

/-- `-0.0` as an `f32`. -/
def f32NegZero : F32 := ⟨0x80000000⟩

/-! ## Casts (`types/int64_type.rs`) -/

/-- Accumulate a nonempty all-ASCII-digit byte string into a `Nat`. -/
def foldDigits (rest : RStr) : Option Nat :=
  if rest.isEmpty then none
  else
    rest.foldl
      (fun acc d =>
        match acc with
        | none => none
        | some n => if 48 ≤ d ∧ d ≤ 57 then some (n * 10 + (d - 48)) else none)
      (some 0)

/-- Rust `str::parse` for a signed integer type with range `[lo, hi]`:
an optional `+`/`-` sign, then one or more ASCII digits, rejecting anything
else and any out-of-range value. -/
def parseSignedIn (lo hi : Int) (s : RStr) : Option Int :=
  let signed : Bool × RStr :=
    match s with
    | 43 :: r => (false, r)
    | 45 :: r => (true, r)
    | r => (false, r)
  match signed with
  | (neg, rest) =>
    match foldDigits rest with
    | none => none
    | some n =>
      let v : Int := if neg then -(n : Int) else (n : Int)
      if lo ≤ v ∧ v ≤ hi then some v else none

/-- Rust `str::parse` for an unsigned integer type with maximum `hi`:
an optional `+` sign (`-` is rejected), then one or more ASCII digits. -/
def parseUnsignedIn (hi : Nat) (s : RStr) : Option Nat :=
  let rest : RStr :=
    match s with
    | 43 :: r => r
    | r => r
  match foldDigits rest with
  | none => none
  | some n => if n ≤ hi then some n else none

/-- Rust `str::parse::<i64>`. -/
def parseI64 (s : RStr) : Option Int := parseSignedIn i64Min i64Max s

/-- `Int64Type::try_cast` (`types/int64_type.rs:17-25`): `Int64` passes
through, `Float64` converts with the saturating `as i64` cast, `Bool` maps to
0/1, `String` parses, anything else is rejected. -/
def int64TypeTryCast : Value → Option Value
  | .int64 v => some (.int64 v)
  | .float64 v => some (.int64 (f64AsI64 v))
  | .bool v => some (.int64 (if v then 1 else 0))
  | .string s => (parseI64 s).map Value.int64
  | _ => none

/-! ## Schemas (`schema/schema_struct.rs`, `schema/column_schema.rs`) -/

/-- `ColumnSchema { source_name, name, data_type }`. -/
structure ColumnSchema where
  source_name : RStr
  name : RStr
  data_type : ConcreteDatatype
deriving DecidableEq

/-- `HashMap::insert` on an association list: overwrite the binding if the key
is present, otherwise append. -/
def insertEntry (m : List (RStr × Nat)) (k : RStr) (v : Nat) : List (RStr × Nat) :=
  match m with
  | [] => [(k, v)]
  | (k', v') :: rest =>
    if k' = k then (k, v) :: rest else (k', v') :: insertEntry rest k v

/-- `HashMap::get` on the association-list model. -/
def lookupEntry (m : List (RStr × Nat)) (k : RStr) : Option Nat :=
  match m with
  | [] => none
  | (k', v') :: rest => if k' = k then some v' else lookupEntry rest k

/-- `.iter().enumerate()` over the column vector (column paired with index). -/
def enumColumns (i : Nat) : List ColumnSchema → List (ColumnSchema × Nat)
  | [] => []
  | c :: rest => (c, i) :: enumColumns (i + 1) rest

/-- The `name_to_index` map built by `Schema::new`: one `HashMap` insert per
column in order, so a later duplicate name overwrites an earlier one. -/
def buildNameToIndex (cols : List ColumnSchema) : List (RStr × Nat) :=
  (enumColumns 0 cols).foldl (fun m p => insertEntry m p.1.name p.2) []

/-- `Schema { column_schemas, name_to_index }`. -/
structure Schema where
  column_schemas : List ColumnSchema
  name_to_index : List (RStr × Nat)
deriving DecidableEq

/-- `Schema::new` (`schema_struct.rs:14-27`). -/
def Schema.new (cols : List ColumnSchema) : Schema :=
  { column_schemas := cols, name_to_index := buildNameToIndex cols }

/-- `Schema::column_schema_by_name` (`schema_struct.rs:30-34`): consult the
name→index map, then index into the column vector. (The Rust code indexes
unconditionally; for maps built by `Schema::new` the index is always valid.) -/
def Schema.columnSchemaByName (s : Schema) (name : RStr) : Option ColumnSchema :=
  (lookupEntry s.name_to_index name).bind fun i => s.column_schemas[i]?

/-- `Schema::contains_column`. -/
def Schema.containsColumn (s : Schema) (name : RStr) : Bool :=
  (lookupEntry s.name_to_index name).isSome

/-! ## Float conversions used by JSON ingestion (`tuple.rs`)

`tuple.rs` converts JSON numbers with Rust `as` casts and range checks. The
casts are exact functions of the bit patterns; round-to-nearest-even is
implemented below on (magnitude, scale) pairs. -/

/-- Round-to-nearest-even of `m / 2^k` to an integer (`k`-bit shift with
half-way ties going to the even quotient). -/
def rneShift (m k : Nat) : Nat :=
  let q := m / 2 ^ k
  let r := m % 2 ^ k
  let half := 2 ^ (k - 1)
  if k = 0 then m
  else if r > half ∨ (r = half ∧ q % 2 = 1) then q + 1 else q

/-- `m * 2^s` rounded to the nearest even representable value, as an `Int`
scaled by `2^t` — i.e. round-to-nearest-even of `m * 2^(s - t)`. -/
def rneScaled (m : Nat) (s t : Int) : Nat :=
  if t ≤ s then m * 2 ^ (s - t).toNat else rneShift m (t - s).toNat

/-- Core of the IEEE round-to-nearest-even conversion: the magnitude bits
(sign excluded) of the float with `mbits` mantissa bits, exponent range
`[emin, emax]` and bias `ebias` nearest to the positive rational `m * 2^s`
(`m ≠ 0`). Overflow gives the infinity pattern; tiny values round into the
subnormal range. -/
def roundPosToFloatBits (mbits : Nat) (emin emax : Int) (ebias : Nat)
    (m : Nat) (s : Int) : Nat :=
  let L : Int := Nat.log2 m
  let e : Int := L + s
  if e < emin then
    rneScaled m s (emin - mbits)
  else
    let q := rneScaled m s (e - mbits)
    let q' := if q = 2 ^ (mbits + 1) then 2 ^ mbits else q
    let e' := if q = 2 ^ (mbits + 1) then e + 1 else e
    if e' > emax then (2 * ebias + 1) * 2 ^ mbits
    else (e' + ebias).toNat * 2 ^ mbits + (q' - 2 ^ mbits)

/-- `n as f64` for a nonnegative integer (`u64` → `f64`, round to nearest
even; also the magnitude step of `i64 as f64`). -/
def natAsF64 (n : Nat) : F64 :=
  if n = 0 then ⟨0⟩ else ⟨roundPosToFloatBits 52 (-1022) 1023 1023 n 0⟩

/-- `i as f64` (`i64` → `f64`). -/
def i64AsF64 (i : Int) : F64 :=
  if i < 0 then ⟨2 ^ 63 + (natAsF64 (-i).toNat).bits⟩ else natAsF64 i.toNat

/-- `n as f32` for a nonnegative integer. -/
def natAsF32 (n : Nat) : F32 :=
  if n = 0 then ⟨0⟩ else ⟨roundPosToFloatBits 23 (-126) 127 127 n 0⟩

/-- `i as f32` (`i64` → `f32`). -/
def i64AsF32 (i : Int) : F32 :=
  if i < 0 then ⟨2 ^ 31 + (natAsF32 (-i).toNat).bits⟩ else natAsF32 i.toNat

/-- The magnitude of a finite `f64` as a `(mantissa, scale)` pair. -/
def f64MagParts (x : F64) : Nat × Int :=
  if f64Exp x == 0 then (f64Frac x, -1074)
  else (2 ^ 52 + f64Frac x, (f64Exp x : Int) - 1075)

/-- `v as f32` (`f64` → `f32`): NaN maps to a (canonical) NaN, infinities and
sign are preserved, finite magnitudes are rounded to nearest even. -/
def f64AsF32 (x : F64) : F32 :=
  let sign : Nat := if f64Sign x then 2 ^ 31 else 0
  if f64IsNan x then ⟨sign + 0x7FC00000⟩
  else if f64IsInf x then ⟨sign + 0x7F800000⟩
  else
    let (m, s) := f64MagParts x
    if m = 0 then ⟨sign⟩
    else ⟨sign + roundPosToFloatBits 23 (-126) 127 127 m s⟩

/-- IEEE order key of a non-NaN `f64`: magnitude bits, negated for negative
sign (both zeros share key 0). -/
def f64Key (x : F64) : Int :=
  if f64Sign x then -((x.bits % 2 ^ 63 : Nat) : Int) else (x.bits % 2 ^ 63 : Nat)

/-- IEEE `<=` on `f64`: false when either side is NaN. -/
def f64Le (a b : F64) : Bool := !f64IsNan a && !f64IsNan b && f64Key a ≤ f64Key b

/-- IEEE `>=` on `f64`. -/
def f64Ge (a b : F64) : Bool := f64Le b a

/-- Rust's saturating `f64`-to-signed-integer cast with the target range
`[lo, hi]`: NaN to 0, truncation toward zero, clamped. -/
def f64AsIntSat (lo hi : Int) (x : F64) : Int :=
  if f64IsNan x then 0
  else if f64IsInf x then (if f64Sign x then lo else hi)
  else min hi (max lo (f64TruncInt x))

/-- Rust's saturating `f64`-to-unsigned-integer cast with maximum `hi`. -/
def f64AsNatSat (hi : Nat) (x : F64) : Nat :=
  (f64AsIntSat 0 hi x).toNat

/-- `u as i64` for `u : u64`: two's-complement wrap. -/
def u64WrapI64 (n : Nat) : Int := if n < 2 ^ 63 then (n : Int) else (n : Int) - 2 ^ 64

/-- `f32::MAX as f64` (exact widening; bit pattern of `(2^24 - 1)·2^104`). -/
def f32MaxAsF64 : F64 := ⟨0x47EFFFFFE0000000⟩

/-- `f32::MIN as f64` (= `-f32::MAX`). -/
def f32MinAsF64 : F64 := ⟨0xC7EFFFFFE0000000⟩

/-! ## JSON ingestion (`flow/src/tuple.rs`)

The byte-level `serde_json` parse is external; the embedding starts from the
parsed `serde_json::Value`. A `serde_json` number is internally a nonnegative
`u64`, a negative `i64`, or a finite `f64`. -/

/-- `serde_json::Number`. -/
inductive JsonNumber where
  | posInt (n : Nat)
  | negInt (i : Int)
  | float (f : F64)
deriving DecidableEq

/-- `serde_json::Value`. -/
inductive JsonValue where
  | null
  | bool (b : Bool)
  | num (n : JsonNumber)
  | str (s : RStr)
  | arr (items : List JsonValue)
  | obj (fields : List (RStr × JsonValue))

/-- `Number::as_i64`: a nonnegative integer if it fits, a negative integer
always, never a float. -/
def jsonNumAsI64 : JsonNumber → Option Int
  | .posInt n => if (n : Int) ≤ i64Max then some (n : Int) else none
  | .negInt i => some i
  | .float _ => none

/-- `Number::as_u64`. -/
def jsonNumAsU64 : JsonNumber → Option Nat
  | .posInt n => some n
  | .negInt _ => none
  | .float _ => none

/-- `Number::as_f64`: integers convert with the rounding `as f64` cast. -/
def jsonNumAsF64 : JsonNumber → Option F64
  | .posInt n => some (natAsF64 n)
  | .negInt i => some (i64AsF64 i)
  | .float f => some f

/-- `Map::get` on a JSON object (`serde_json` objects have unique keys, so
first-match lookup is exact). -/
def objGet (fields : List (RStr × JsonValue)) (k : RStr) : Option JsonValue :=
  match fields with
  | [] => none
  | (k', v) :: rest => if k' = k then some v else objGet rest k

/-- ASCII `to_lowercase` (the Rust call is Unicode-aware; the difference only
affects non-ASCII strings, none of which match the recognized bool words). -/
def asciiLower (s : RStr) : RStr :=
  s.map fun b => if 65 ≤ b ∧ b ≤ 90 then b + 32 else b

/-- The `{true|1|yes|on} / {false|0|no|off}` bool-word match of `tuple.rs`
(applied to the lowercased string). -/
def boolOfLowerStr (s : RStr) : Option Bool :=
  if s = [116, 114, 117, 101] ∨ s = [49] ∨ s = [121, 101, 115] ∨
      s = [111, 110] then some true
  else if s = [102, 97, 108, 115, 101] ∨ s = [48] ∨ s = [110, 111] ∨
      s = [111, 102, 102] then some false
  else none

/-- `n.to_string()` for a `Nat` (ASCII decimal digits). -/
def natToString (n : Nat) : RStr := (Nat.toDigits 10 n).map Char.toNat

/-- `i.to_string()` for an `Int`. -/
def intToString (i : Int) : RStr :=
  if i < 0 then 45 :: natToString (-i).toNat else natToString i.toNat

/-- `b.to_string()` for a `bool` (`"true"` / `"false"`). -/
def boolToString (b : Bool) : RStr :=
  if b then [116, 114, 117, 101] else [102, 97, 108, 115, 101]

/-- External standard-library / missing-repository functions that `tuple.rs`
calls but whose code is outside the snapshot. `parse::<f32/f64>` and float
`Display` are Rust standard library; `StructType::default_value` and
`ListType::default_value` are repository code not under `src/`
(`types/struct_type.rs` / `list_type.rs` are absent) — the claims are settled
for primitive column datatypes, so no behaviour of these parameters is
assumed. -/
structure RustStd where
  parseF32 : RStr → Option F32
  parseF64 : RStr → Option F64
  f32ToString : F32 → RStr
  f64ToString : F64 → RStr
  structDefaultValue : StructTypeM → Value
  listDefaultValue : ListTypeM → Value

/-- `get_default_value` (`tuple.rs:591-608`), delegating to each datatype's
`default_value`: 0 for integer types, 0.0 for floats, the empty string, and
`false` (`types/{int64,float64,string,boolean}_type.rs`; the other primitive
width types follow the same pattern in the missing type files, as the spec
records). -/
def getDefaultValue (std : RustStd) : ConcreteDatatype → Value
  | .int8 => .int8 0
  | .int16 => .int16 0
  | .int32 => .int32 0
  | .int64 => .int64 0
  | .float32 => .float32 f32PosZero
  | .float64 => .float64 f64PosZero
  | .uint8 => .uint8 0
  | .uint16 => .uint16 0
  | .uint32 => .uint32 0
  | .uint64 => .uint64 0
  | .string => .string []
  | .bool => .bool false
  | .struct t => std.structDefaultValue t
  | .list t => std.listDefaultValue t

/-- `JsonError` (`tuple.rs`): parse error, invalid format, or type mismatch.
(The Rust variants carry formatted message strings; no claim inspects them,
so the payloads are omitted here.) -/
inductive JsonError where
  | parseError
  | invalidFormat
  | typeMismatch
deriving DecidableEq

/-- `json_value_to_value` (`tuple.rs:122-585`): convert one JSON value to a
`Value` of the expected datatype. Arms in source order: JSON `null` takes the
datatype's default; matching primitive pairs convert (numbers with range
checks, fractional floats rejected for integer targets in the fallback);
then the `Number`/`Bool`/`String` fallback arms; everything else is a type
mismatch. -/
def jsonValueToValue (std : RustStd) : JsonValue → ConcreteDatatype → Except JsonError Value
  | .null, dt => .ok (getDefaultValue std dt)
  | .bool b, .bool => .ok (.bool b)
  | .num n, .int8 =>
    match jsonNumAsI64 n with
    | some i => if -128 ≤ i ∧ i ≤ 127 then .ok (.int8 i) else .error .typeMismatch
    | none => .error .typeMismatch
  | .num n, .int16 =>
    match jsonNumAsI64 n with
    | some i =>
      if -32768 ≤ i ∧ i ≤ 32767 then .ok (.int16 i) else .error .typeMismatch
    | none => .error .typeMismatch
  | .num n, .int32 =>
    match jsonNumAsI64 n with
    | some i =>
      if -2147483648 ≤ i ∧ i ≤ 2147483647 then .ok (.int32 i)
      else .error .typeMismatch
    | none => .error .typeMismatch
  | .num n, .int64 =>
    match jsonNumAsI64 n with
    | some i => .ok (.int64 i)
    | none => .error .typeMismatch
  | .num n, .float32 =>
    match jsonNumAsF64 n with
    | some f =>
      if f64Ge f f32MinAsF64 && f64Le f f32MaxAsF64 then
        .ok (.float32 (f64AsF32 f))
      else .error .typeMismatch
    | none => .error .typeMismatch
  | .num n, .float64 =>
    match jsonNumAsF64 n with
    | some f => .ok (.float64 f)
    | none => .error .typeMismatch
  | .num n, .uint8 =>
    match jsonNumAsU64 n with
    | some u => if u ≤ 255 then .ok (.uint8 u) else .error .typeMismatch
    | none => .error .typeMismatch
  | .num n, .uint16 =>
    match jsonNumAsU64 n with
    | some u => if u ≤ 65535 then .ok (.uint16 u) else .error .typeMismatch
    | none => .error .typeMismatch
  | .num n, .uint32 =>
    match jsonNumAsU64 n with
    | some u => if u ≤ 4294967295 then .ok (.uint32 u) else .error .typeMismatch
    | none => .error .typeMismatch
  | .num n, .uint64 =>
    match jsonNumAsU64 n with
    | some u => .ok (.uint64 u)
    | none => .error .typeMismatch
  | .str s, .string => .ok (.string s)
  | .num n, dt =>
    -- the `(JsonValue::Number(n), dt)` fallback arm (`tuple.rs:214-465`);
    -- its numeric-datatype sub-arms are unreachable (matched above) but are
    -- translated faithfully
    match jsonNumAsI64 n with
    | some i =>
      match dt with
      | .int8 =>
        if -128 ≤ i ∧ i ≤ 127 then .ok (.int8 i) else .error .typeMismatch
      | .int16 =>
        if -32768 ≤ i ∧ i ≤ 32767 then .ok (.int16 i) else .error .typeMismatch
      | .int32 =>
        if -2147483648 ≤ i ∧ i ≤ 2147483647 then .ok (.int32 i)
        else .error .typeMismatch
      | .int64 => .ok (.int64 i)
      | .float32 => .ok (.float32 (i64AsF32 i))
      | .float64 => .ok (.float64 (i64AsF64 i))
      | .uint8 =>
        if 0 ≤ i ∧ i ≤ 255 then .ok (.uint8 i.toNat) else .error .typeMismatch
      | .uint16 =>
        if 0 ≤ i ∧ i ≤ 65535 then .ok (.uint16 i.toNat)
        else .error .typeMismatch
      | .uint32 =>
        if 0 ≤ i ∧ i ≤ 4294967295 then .ok (.uint32 i.toNat)
        else .error .typeMismatch
      | .uint64 =>
        if 0 ≤ i then .ok (.uint64 i.toNat) else .error .typeMismatch
      | .string => .ok (.string (intToString i))
      | _ => .error .typeMismatch
    | none =>
      match jsonNumAsF64 n with
      | some f =>
        match dt with
        | .int8 =>
          if f64Ge f (i64AsF64 (-128)) && f64Le f (i64AsF64 127) &&
              f64IsIntegral f then
            .ok (.int8 (f64AsIntSat (-128) 127 f))
          else .error .typeMismatch
        | .int16 =>
          if f64Ge f (i64AsF64 (-32768)) && f64Le f (i64AsF64 32767) &&
              f64IsIntegral f then
            .ok (.int16 (f64AsIntSat (-32768) 32767 f))
          else .error .typeMismatch
        | .int32 =>
          if f64Ge f (i64AsF64 (-2147483648)) &&
              f64Le f (i64AsF64 2147483647) && f64IsIntegral f then
            .ok (.int32 (f64AsIntSat (-2147483648) 2147483647 f))
          else .error .typeMismatch
        | .int64 => .ok (.int64 (f64AsI64 f))
        | .float32 =>
          if f64Ge f f32MinAsF64 && f64Le f f32MaxAsF64 then
            .ok (.float32 (f64AsF32 f))
          else .error .typeMismatch
        | .float64 => .ok (.float64 f)
        | .uint8 =>
          if f64Ge f f64PosZero && f64Le f (natAsF64 255) &&
              f64IsIntegral f then
            .ok (.uint8 (f64AsNatSat 255 f))
          else .error .typeMismatch
        | .uint16 =>
          if f64Ge f f64PosZero && f64Le f (natAsF64 65535) &&
              f64IsIntegral f then
            .ok (.uint16 (f64AsNatSat 65535 f))
          else .error .typeMismatch
        | .uint32 =>
          if f64Ge f f64PosZero && f64Le f (natAsF64 4294967295) &&
              f64IsIntegral f then
            .ok (.uint32 (f64AsNatSat 4294967295 f))
          else .error .typeMismatch
        | .uint64 =>
          if f64Ge f f64PosZero && f64Le f (natAsF64 (2 ^ 64 - 1)) &&
              f64IsIntegral f then
            .ok (.uint64 (f64AsNatSat (2 ^ 64 - 1) f))
          else .error .typeMismatch
        | .string => .ok (.string (std.f64ToString f))
        | _ => .error .typeMismatch
      | none =>
        match jsonNumAsU64 n with
        | some u =>
          match dt with
          | .int8 =>
            if u ≤ 127 then .ok (.int8 (u : Int)) else .error .typeMismatch
          | .int16 =>
            if u ≤ 32767 then .ok (.int16 (u : Int)) else .error .typeMismatch
          | .int32 =>
            if u ≤ 2147483647 then .ok (.int32 (u : Int))
            else .error .typeMismatch
          | .int64 => .ok (.int64 (u64WrapI64 u))
          | .float32 => .ok (.float32 (natAsF32 u))
          | .float64 => .ok (.float64 (natAsF64 u))
          | .uint8 =>
            if u ≤ 255 then .ok (.uint8 u) else .error .typeMismatch
          | .uint16 =>
            if u ≤ 65535 then .ok (.uint16 u) else .error .typeMismatch
          | .uint32 =>
            if u ≤ 4294967295 then .ok (.uint32 u) else .error .typeMismatch
          | .uint64 => .ok (.uint64 u)
          | .string => .ok (.string (natToString u))
          | _ => .error .typeMismatch
        | none => .error .typeMismatch
  | .bool b, dt =>
    -- the `(JsonValue::Bool(b), dt)` fallback arm (`tuple.rs:466-488`)
    match dt with
    | .int8 => .ok (.int8 (if b then 1 else 0))
    | .int16 => .ok (.int16 (if b then 1 else 0))
    | .int32 => .ok (.int32 (if b then 1 else 0))
    | .int64 => .ok (.int64 (if b then 1 else 0))
    | .float32 => .ok (.float32 (if b then ⟨0x3F800000⟩ else ⟨0⟩))
    | .float64 => .ok (.float64 (if b then ⟨0x3FF0000000000000⟩ else ⟨0⟩))
    | .uint8 => .ok (.uint8 (if b then 1 else 0))
    | .uint16 => .ok (.uint16 (if b then 1 else 0))
    | .uint32 => .ok (.uint32 (if b then 1 else 0))
    | .uint64 => .ok (.uint64 (if b then 1 else 0))
    | .string => .ok (.string (boolToString b))
    | _ => .error .typeMismatch
  | .str s, dt =>
    -- the `(JsonValue::String(s), dt)` fallback arm (`tuple.rs:489-579`)
    match dt with
    | .int8 =>
      match parseSignedIn (-128) 127 s with
      | some i => .ok (.int8 i)
      | none => .error .typeMismatch
    | .int16 =>
      match parseSignedIn (-32768) 32767 s with
      | some i => .ok (.int16 i)
      | none => .error .typeMismatch
    | .int32 =>
      match parseSignedIn (-2147483648) 2147483647 s with
      | some i => .ok (.int32 i)
      | none => .error .typeMismatch
    | .int64 =>
      match parseI64 s with
      | some i => .ok (.int64 i)
      | none => .error .typeMismatch
    | .float32 =>
      match std.parseF32 s with
      | some f => .ok (.float32 f)
      | none => .error .typeMismatch
    | .float64 =>
      match std.parseF64 s with
      | some f => .ok (.float64 f)
      | none => .error .typeMismatch
    | .uint8 =>
      match parseUnsignedIn 255 s with
      | some u => .ok (.uint8 u)
      | none => .error .typeMismatch
    | .uint16 =>
      match parseUnsignedIn 65535 s with
      | some u => .ok (.uint16 u)
      | none => .error .typeMismatch
    | .uint32 =>
      match parseUnsignedIn 4294967295 s with
      | some u => .ok (.uint32 u)
      | none => .error .typeMismatch
    | .uint64 =>
      match parseUnsignedIn (2 ^ 64 - 1) s with
      | some u => .ok (.uint64 u)
      | none => .error .typeMismatch
    | .bool =>
      match boolOfLowerStr (asciiLower s) with
      | some b => .ok (.bool b)
      | none => .error .typeMismatch
    | _ => .error .typeMismatch
  | _, _ => .error .typeMismatch

/-- `Tuple { schema, row }` (`tuple.rs`, with `Row` from `row.rs` as a value
vector). -/
structure Tuple where
  schema : Schema
  row : List Value
deriving DecidableEq

/-- The per-column loop of `Tuple::new_from_json`: a present key converts via
`json_value_to_value`, an absent key takes the datatype default. -/
def buildValues (std : RustStd) (fields : List (RStr × JsonValue)) :
    List ColumnSchema → Except JsonError (List Value)
  | [] => .ok []
  | col :: rest => do
    let v ←
      match objGet fields col.name with
      | some jv => jsonValueToValue std jv col.data_type
      | none => .ok (getDefaultValue std col.data_type)
    let vs ← buildValues std fields rest
    .ok (v :: vs)

/-- `Tuple::new_from_json` (`tuple.rs:98-118`), starting from the parsed JSON
value (the byte-level `serde_json` parse is external): requires a JSON
object, then populates one value per schema column. -/
def tupleNewFromJson (std : RustStd) (schema : Schema) (json : JsonValue) :
    Except JsonError Tuple :=
  match json with
  | .obj fields => do
    let vs ← buildValues std fields schema.column_schemas
    .ok ⟨schema, vs⟩
  | _ => .error .invalidFormat

/-- A datatype is primitive when it is neither a struct nor a list (those two
have their `default_value` outside the snapshot). -/
def ConcreteDatatype.isPrimitive : ConcreteDatatype → Bool
  | .struct _ => false
  | .list _ => false
  | _ => true

/-- A concrete instantiation of the external-function parameters, used by the
witnesses (no theorem depends on its behaviour). -/
def stdModel0 : RustStd :=
  { parseF32 := fun _ => none
    parseF64 := fun _ => none
    f32ToString := fun _ => []
    f64ToString := fun _ => []
    structDefaultValue := fun _ => .null
    listDefaultValue := fun _ => .null }

/-- Witness columns for C10: `a : Int64` (present in the JSON), `b : String`
(absent), `c : Float64` (JSON `null`). -/
def c10Cols : List ColumnSchema :=
  [⟨[], [97], .int64⟩, ⟨[], [98], .string⟩, ⟨[], [99], .float64⟩]

/-- Witness JSON object for C10: `{"a": 7, "c": null}`. -/
def c10Fields : List (RStr × JsonValue) :=
  [([97], .num (.posInt 7)), ([99], .null)]

/-- Witness tuple for C10: `a = 7`, `b` defaults to `""`, `c` defaults to
`0.0`. -/
def c10Tuple : Tuple :=
  ⟨Schema.new c10Cols, [.int64 7, .string [], .float64 f64PosZero]⟩

/-! ## bincode 1.x primitives

`bincode::serialize` (the legacy configuration used by `bincode::serialize` /
`serialize_into`) writes little-endian fixed-width integers, `u64` length
prefixes for sequences/strings/maps, a `u32` variant index for enums, and a
single `0`/`1` byte for `Option` and `bool`. -/

/-- Little-endian byte encoding of `n` in `k` bytes. -/
def encLE (k n : Nat) : List Nat :=
  match k with
  | 0 => []
  | k + 1 => n % 256 :: encLE k (n / 256)

/-- `u8`. -/
def encU8 (n : Nat) : List Nat := encLE 1 n

/-- `u32` (also the enum variant index). -/
def encU32 (n : Nat) : List Nat := encLE 4 n

/-- `u64` (also `usize` and all length prefixes). -/
def encU64 (n : Nat) : List Nat := encLE 8 n

/-- `i64`: two's-complement, little-endian. -/
def encI64 (i : Int) : List Nat := encU64 (i % 2 ^ 64).toNat

/-- `bool`: one byte. -/
def encBool (b : Bool) : List Nat := [if b then 1 else 0]

/-- `String` / `&str`: `u64` length then the UTF-8 bytes. -/
def encStr (s : RStr) : List Nat := encU64 s.length ++ s

/-- `Option<T>`: tag byte 0 (`None`) or 1 (`Some`) then the payload. -/
def encOption (enc : α → List Nat) : Option α → List Nat
  | none => [0]
  | some x => 1 :: enc x

/-- `Vec<T>`: `u64` length then the elements. -/
def encList (enc : α → List Nat) (xs : List α) : List Nat :=
  encU64 xs.length ++ xs.flatMap enc

/-! ## Metadata store (`src/storage/src/lib.rs`)

The redb backend is external; the embedding models each table as a key to
encoded-record map and a write transaction as "apply on commit, discard on
early return". -/

/-- `StorageError` (`storage/src/lib.rs:20-36`). The `Io`/`Backend`/
`Serialization` variants carry formatted messages in Rust, which no claim
inspects; they are omitted here. -/
inductive StorageError where
  | io
  | backend
  | serialization
  | unsupportedVersion (v : Nat)
  | corrupted
  | notFound (key : RStr)
  | alreadyExists (key : RStr)
deriving DecidableEq

/-- `StoredStreamType`. -/
inductive StoredStreamType where
  | mqtt
deriving DecidableEq

/-- `StoredMqttStreamProps`. -/
structure StoredMqttStreamProps where
  broker_url : RStr
  topic : RStr
  qos : Nat
  client_id : Option RStr
  connector_key : Option RStr
deriving DecidableEq

/-- `StoredStreamProps`. -/
inductive StoredStreamProps where
  | mqtt (props : StoredMqttStreamProps)
deriving DecidableEq

/-- `StoredStream`. -/
structure StoredStream where
  id : RStr
  stream_type : StoredStreamType
  schema_json : RStr
  props : StoredStreamProps
  decoder_type : RStr
deriving DecidableEq

/-- `StoredSink`. -/
structure StoredSink where
  id : RStr
  kind : RStr
  config_json : RStr
deriving DecidableEq

/-- `StoredPipeline`. -/
structure StoredPipeline where
  id : RStr
  sql : RStr
  sinks : List StoredSink
deriving DecidableEq

/-- `StoredMqttClientConfig`. -/
structure StoredMqttClientConfig where
  key : RStr
  broker_url : RStr
  topic : RStr
  client_id : RStr
  qos : Nat
deriving DecidableEq

/-- bincode body of a `StoredMqttStreamProps` (derived `Serialize`, fields in
declaration order). -/
def encStoredMqttStreamProps (p : StoredMqttStreamProps) : List Nat :=
  encStr p.broker_url ++ encStr p.topic ++ encU8 p.qos ++
    encOption encStr p.client_id ++ encOption encStr p.connector_key

/-- bincode body of a `StoredStream`. -/
def encStoredStream (s : StoredStream) : List Nat :=
  encStr s.id ++
    (match s.stream_type with | .mqtt => encU32 0) ++
    encStr s.schema_json ++
    (match s.props with | .mqtt p => encU32 0 ++ encStoredMqttStreamProps p) ++
    encStr s.decoder_type

/-- bincode body of a `StoredSink`. -/
def encStoredSink (s : StoredSink) : List Nat :=
  encStr s.id ++ encStr s.kind ++ encStr s.config_json

/-- bincode body of a `StoredPipeline`. -/
def encStoredPipeline (p : StoredPipeline) : List Nat :=
  encStr p.id ++ encStr p.sql ++ encList encStoredSink p.sinks

/-- bincode body of a `StoredMqttClientConfig`. -/
def encStoredMqttClientConfig (c : StoredMqttClientConfig) : List Nat :=
  encStr c.key ++ encStr c.broker_url ++ encStr c.topic ++
    encStr c.client_id ++ encU8 c.qos

/-- `CURRENT_VERSION`. -/
def currentVersion : Nat := 1

/-- `encode_record` (`storage/src/lib.rs:311-316`): the version byte followed
by the bincode body. -/
def encodeRecord (body : List Nat) : List Nat := currentVersion :: body

/-- One metadata table: key to stored record bytes. -/
abbrev MetaTable := List (RStr × List Nat)

/-- `MetadataStorage` state: the three tables of the metadata namespace. -/
structure MetaState where
  streams : MetaTable
  pipelines : MetaTable
  sharedMqttConfigs : MetaTable
deriving DecidableEq

/-- `Table::get` on a metadata table. -/
def tableLookup (t : MetaTable) (k : RStr) : Option (List Nat) :=
  match t with
  | [] => none
  | (k', v) :: rest => if k' = k then some v else tableLookup rest k

/-- `MetadataStorage::insert_if_absent` (`storage/src/lib.rs:197-216`) on one
table: an occupied key returns `AlreadyExists` before anything is written
(the transaction is dropped uncommitted); otherwise the encoded record is
inserted and committed. -/
def insertIfAbsent (t : MetaTable) (k : RStr) (encoded : List Nat) :
    Except StorageError MetaTable :=
  if (tableLookup t k).isSome then .error (.alreadyExists k)
  else .ok ((k, encoded) :: t)

/-- `MetadataStorage::create_stream`, returning the operation result and the
post-transaction state (unchanged when the operation fails). -/
def createStream (st : MetaState) (s : StoredStream) :
    Option StorageError × MetaState :=
  match insertIfAbsent st.streams s.id (encodeRecord (encStoredStream s)) with
  | .error e => (some e, st)
  | .ok t => (none, { st with streams := t })

/-- `MetadataStorage::create_pipeline`. -/
def createPipeline (st : MetaState) (p : StoredPipeline) :
    Option StorageError × MetaState :=
  match insertIfAbsent st.pipelines p.id (encodeRecord (encStoredPipeline p)) with
  | .error e => (some e, st)
  | .ok t => (none, { st with pipelines := t })

/-- `MetadataStorage::create_mqtt_config`. -/
def createMqttConfig (st : MetaState) (c : StoredMqttClientConfig) :
    Option StorageError × MetaState :=
  match insertIfAbsent st.sharedMqttConfigs c.key
      (encodeRecord (encStoredMqttClientConfig c)) with
  | .error e => (some e, st)
  | .ok t => (none, { st with sharedMqttConfigs := t })

/-- A concrete one-entry metadata state for the C9 witness. -/
def c9Stream : StoredStream :=
  ⟨[115, 49], .mqtt, [123, 125], .mqtt ⟨[], [], 0, none, none⟩, [106]⟩

/-- The C9 witness pipeline. -/
def c9Pipeline : StoredPipeline := ⟨[112, 49], [83, 81, 76], []⟩

/-- The C9 witness shared MQTT config. -/
def c9Mqtt : StoredMqttClientConfig := ⟨[107, 49], [], [], [], 0⟩

/-- The C9 witness state, with all three keys already bound. -/
def c9State : MetaState :=
  ⟨[([115, 49], encodeRecord (encStoredStream c9Stream))],
   [([112, 49], encodeRecord (encStoredPipeline c9Pipeline))],
   [([107, 49], encodeRecord (encStoredMqttClientConfig c9Mqtt))]⟩

/-! ## Expressions (`expr/scalar.rs`)

`ScalarExpr::eval` is in the snapshot; the `UnaryFunc`/`BinaryFunc` function
tables (`expr/func.rs`) are not. -/

/-- `EvalError` (spec §4.1; `expr/func.rs` is outside the snapshot). The
`TypeMismatch` message strings are omitted. -/
inductive EvalError where
  | indexOutOfBounds (index length : Nat)
  | typeMismatch
  | divideByZero
  | overflow
  | nullArgument
deriving DecidableEq

/-- Modelled from the spec: `UnaryFunc` — `expr/func.rs` is repository code
absent from `src/`; only logical negation is needed here. -/
inductive UnaryFunc where
  | notOp
deriving DecidableEq

/-- Modelled from the spec: `BinaryFunc` — `expr/func.rs` is absent from
`src/`; only greater-than comparison is needed here. -/
inductive BinaryFunc where
  | gt
deriving DecidableEq

/-- Modelled from the spec: applying a unary function to an argument value. -/
def unaryApply : UnaryFunc → Value → Except EvalError Value
  | .notOp, .bool b => .ok (.bool !b)
  | .notOp, _ => .error .typeMismatch

/-- Modelled from the spec: applying a binary function to argument values. -/
def binaryApply : BinaryFunc → Value → Value → Except EvalError Value
  | .gt, .int64 a, .int64 b => .ok (.bool (decide (a > b)))
  | .gt, _, _ => .error .typeMismatch

/-- `ScalarExpr` (`expr/scalar.rs:8-27`): column reference by index, typed
literal, unary call, binary call. -/
inductive ScalarExpr where
  | column (index : Nat)
  | literal (val : Value) (ty : ConcreteDatatype)
  | callUnary (func : UnaryFunc) (expr : ScalarExpr)
  | callBinary (func : BinaryFunc) (expr1 expr2 : ScalarExpr)
deriving DecidableEq

/-- `ScalarExpr::eval` (`expr/scalar.rs:41-63`): pure evaluation against a
row; a missing column is `IndexOutOfBounds`; calls evaluate their arguments
and apply the (spec-modelled) function table. -/
def ScalarExpr.eval : ScalarExpr → List Value → Except EvalError Value
  | .column index, values =>
    match values[index]? with
    | some v => .ok v
    | none => .error (.indexOutOfBounds index values.length)
  | .literal v _, _ => .ok v
  | .callUnary f e, values => do
    let v ← e.eval values
    unaryApply f v
  | .callBinary f e1 e2, values => do
    let v1 ← e1.eval values
    let v2 ← e2.eval values
    binaryApply f v1 v2

/-! ## Stream envelopes and the filter routine
(`processor/filter_processor.rs`, `processor/stream_processor.rs`)

`processor/stream_data.rs` and `model/record_batch.rs` are declared by their
module files but absent from the snapshot; `StreamData`, `ControlSignal`,
`StreamError` and the columnar batch are modelled from the spec (§3) and
their uses in the processor sources and tests. -/

/-- Modelled from the spec: `ControlSignal` — `StreamStart, StreamEnd, Flush,
Backpressure, Resume`. -/
inductive ControlSignal where
  | streamStart
  | streamEnd
  | flush
  | backpressure
  | resume
deriving DecidableEq

/-- Modelled from the spec: a `StreamError` carries `{message, source_name,
timestamp}`; the wall-clock timestamp is not statable and omitted. -/
structure StreamErrorM where
  message : RStr
  source_name : Option RStr
deriving DecidableEq

/-- Modelled from the spec: a column of a record batch
(`Column { source_name, name, values }`). -/
structure ColumnM where
  source_name : RStr
  name : RStr
  values : List Value
deriving DecidableEq

/-- Modelled from the spec: a columnar record batch. -/
structure RecordBatchM where
  columns : List ColumnM
deriving DecidableEq

/-- Modelled from the spec: the `StreamData` envelope — a data batch, a
control signal, or an error. -/
inductive StreamData where
  | collection (batch : RecordBatchM)
  | control (signal : ControlSignal)
  | error (e : StreamErrorM)
deriving DecidableEq

/-- `StreamData::is_data`. -/
def StreamData.isData : StreamData → Bool
  | .collection _ => true
  | _ => false

/-- `StreamData::as_collection`. -/
def StreamData.asCollection : StreamData → Option RecordBatchM
  | .collection b => some b
  | _ => none

/-- `utils::is_stop_signal` (`stream_processor.rs:81-83`). -/
def isStopSignal : StreamData → Bool
  | .control .streamEnd => true
  | _ => false

/-- A `broadcast::recv` error: the subscriber lagged (with the skip count) or
the channel closed. -/
inductive RecvError where
  | lagged (n : Nat)
  | closed
deriving DecidableEq

/-- One result of `recv` on the first input channel. -/
inductive RecvItem where
  | ok (d : StreamData)
  | err (e : RecvError)
deriving DecidableEq

/-- `utils::handle_receive_error` (`stream_processor.rs:61-70`): lag becomes
a `Backpressure` control envelope, closure becomes a `StreamEnd` control
envelope. -/
def handleReceiveError : RecvError → StreamData
  | .lagged _ => .control .backpressure
  | .closed => .control .streamEnd

/-- `"FilterProcessor"`, the source name attached to filter errors. -/
def filterProcessorName : RStr :=
  [70, 105, 108, 116, 101, 114, 80, 114, 111, 99, 101, 115, 115, 111, 114]

/-- `FilterProcessor::static_should_include_static`
(`filter_processor.rs:178-181`): the predicate stub — includes every batch. -/
def staticShouldIncludeStatic (_batch : RecordBatchM) : Except RStr Bool :=
  .ok true

/-- `FilterProcessor::should_include` (`filter_processor.rs:42-46`): the same
stub on the instance method. -/
def shouldInclude (_batch : RecordBatchM) : Except RStr Bool := .ok true

/-- The loop body of `create_filter_routine` (`filter_processor.rs:99-166`)
as a function from the sequence of `recv` results to the envelopes sent:
a consumed `StreamEnd` signal breaks the loop (the final `StreamEnd` send
follows); data batches are forwarded when `should_include` allows (it always
does); other envelopes are forwarded unchanged; `recv` errors are converted
by `handle_receive_error` and forwarded without breaking the loop. Sends are
assumed to succeed (a live downstream); an exhausted input list leaves the
routine blocked in `recv`, so no final `StreamEnd` is reached. -/
def filterRoutineGo : List RecvItem → List StreamData
  | [] => []
  | item :: rest =>
    match item with
    | .ok d =>
      if isStopSignal d then [.control .streamEnd]
      else
        (if d.isData then
          match d.asCollection with
          | some batch =>
            match staticShouldIncludeStatic batch with
            | .ok b => if b then [d] else []
            | .error msg => [.error ⟨msg, some filterProcessorName⟩]
          | none => []
        else [d]) ++ filterRoutineGo rest
    | .err e => handleReceiveError e :: filterRoutineGo rest

/-- `create_filter_routine` (`filter_processor.rs:88-174`): send `StreamStart`
once, run the loop, and send the final `StreamEnd` when the loop breaks. -/
def filterRoutine (inputs : List RecvItem) : List StreamData :=
  .control .streamStart :: filterRoutineGo inputs

/-- Whether the routine consumes a stop signal (and hence terminates). -/
def containsStop (inputs : List RecvItem) : Bool :=
  inputs.any fun item =>
    match item with
    | .ok d => isStopSignal d
    | .err _ => false

/-- The one-column, one-row batch `a = [10]` used against the predicate
`a > 15`. -/
def c2Batch : RecordBatchM := ⟨[⟨[], [97], [.int64 10]⟩]⟩

/-- The scalar predicate `a > 15` (column 0 greater than literal 15). -/
def c2Predicate : ScalarExpr :=
  .callBinary .gt (.column 0) (.literal (.int64 15) .int64)

/-! ## The SQL expression AST carried by plans

`sqlparser::ast::Expr` is an external crate type; the model below covers the
subset the planner emits into predicates and project fields: identifiers,
compound identifiers, literals and binary operations. Enum variant indices in
the bincode encoding below are the model's own (encoder and decoder agree on
them, which is what round-tripping depends on). -/

/-- `sqlparser::ast::Ident { value, quote_style }`; the quote character is a
Unicode scalar value. -/
structure IdentM where
  value : RStr
  quote_style : Option Nat
deriving DecidableEq

/-- The binary operators the planner's SQL subset uses. -/
inductive BinOpM where
  | plus
  | minus
  | multiply
  | divide
  | gt
  | lt
  | gtEq
  | ltEq
  | eq
  | notEq
  | and
  | or
deriving DecidableEq

/-- `sqlparser::ast::Value`: numeric literals carry their digit string and a
long flag; string literals are single-quoted. -/
inductive SqlValueM where
  | number (digits : RStr) (long : Bool)
  | singleQuotedString (s : RStr)
deriving DecidableEq

/-- The `sqlparser::ast::Expr` subset the planner emits. -/
inductive ExprM where
  | ident (i : IdentM)
  | compoundIdent (parts : List IdentM)
  | binaryOp (left : ExprM) (op : BinOpM) (right : ExprM)
  | value (v : SqlValueM)
deriving DecidableEq

/-! ## Physical plan builder (`planner/physical_plan_builder.rs`)

`create_physical_plan` lowers `DataSource`/`Filter`/`Project` logical nodes
(the kinds defined in the snapshot's logical planner) and fails on anything
else. The SQL→scalar conversion (`expr/sql_conversion.rs`) and
`PhysicalProjectField::from_logical` are repository code absent from `src/`;
they are carried as opaque conversion parameters, which the lowering shape
does not depend on. -/

/-- A logical `Project` field (`field_name`, original SQL expression). -/
structure LogicalProjectFieldM where
  field_name : RStr
  expr : ExprM
deriving DecidableEq

mutual
/-- The logical plan tree over the node kinds defined in the snapshot:
`DataSource` (a leaf: `BaseLogicalPlan::new(vec![], index)`), `Filter` and
`Project`. The decoder descriptor and event-time binding carried by
`DataSource` live in the absent catalog module and are reduced to the decoder
kind string, which the builder never reads. -/
inductive LogicalPlanT where
  | dataSource (index : Int) (source_name : RStr) (aliasName : Option RStr)
      (decoder_kind : RStr) (schema : Schema)
  | filter (index : Int) (predicate : ExprM) (children : LogicalPlanList)
  | project (index : Int) (fields : List LogicalProjectFieldM)
      (children : LogicalPlanList)

/-- Child list of a logical plan node. -/
inductive LogicalPlanList where
  | nil
  | cons (hd : LogicalPlanT) (tl : LogicalPlanList)
end

deriving instance DecidableEq for LogicalPlanT, LogicalPlanList

/-- A physical `Project` field; `plan_cache.rs` reads its `field_name` and
`original_expr` (`physical_project.rs` is absent from the snapshot). -/
structure PhysicalProjectFieldM where
  field_name : RStr
  original_expr : ExprM
deriving DecidableEq

mutual
/-- The physical plan node kinds relevant to lowering: the three produced by
`create_physical_plan`, plus `Decoder` (`physical_decoder.rs`), which exists
as a node type but is never produced by the builder. -/
inductive PhysicalPlanT where
  | dataSource (index : Int) (source_name : RStr) (aliasName : Option RStr)
      (schema : Schema)
  | decoder (index : Int) (decoder_kind : RStr) (schema : Schema)
      (children : PhysicalPlanList)
  | filter (index : Int) (predicate : ExprM) (scalar_predicate : ScalarExpr)
      (children : PhysicalPlanList)
  | project (index : Int) (fields : List PhysicalProjectFieldM)
      (children : PhysicalPlanList)

/-- Child list of a physical plan node. -/
inductive PhysicalPlanList where
  | nil
  | cons (hd : PhysicalPlanT) (tl : PhysicalPlanList)
end

deriving instance DecidableEq for PhysicalPlanT, PhysicalPlanList

/-- `SchemaBindingEntry { source_name, aliasName, schema, kind }`
(`sql_conversion.rs` is absent; the fields are those `find_binding_entry` and
the tests use — the binding-kind tag is not read by the builder and is
omitted). -/
structure SchemaBindingEntry where
  source_name : RStr
  aliasName : Option RStr
  schema : Schema
deriving DecidableEq

/-- `SchemaBinding`: the entry list. -/
structure SchemaBinding where
  entries : List SchemaBindingEntry
deriving DecidableEq

/-- The conversion callbacks whose implementations
(`convert_expr_to_scalar_with_bindings`,
`PhysicalProjectField::from_logical`) are outside the snapshot. Errors are
message strings. -/
structure ExprConv where
  toScalar : ExprM → SchemaBinding → Except RStr ScalarExpr
  fieldFromLogical : RStr → ExprM → SchemaBinding → Except RStr PhysicalProjectFieldM

/-- `find_binding_entry` (`physical_plan_builder.rs:125-148`): prefer an
aliasName match, then fall back to the first source-name match, else fail. -/
def findBindingEntry (source_name : RStr) (aliasName : Option RStr)
    (bindings : SchemaBinding) : Except RStr SchemaBindingEntry :=
  let fallback : Except RStr SchemaBindingEntry :=
    match bindings.entries.find? (fun e => e.source_name == source_name) with
    | some e => .ok e
    | none => .error source_name
  match aliasName with
  | some a =>
    match bindings.entries.find? (fun e => e.aliasName == some a) with
    | some e => .ok e
    | none => fallback
  | none => fallback

mutual
/-- `create_physical_plan` (`physical_plan_builder.rs:18-46`): one physical
node per logical node — `DataSource` resolves its schema from the bindings,
`Filter` lowers its children then converts its predicate, `Project` lowers
its children then its fields; each produced node reuses the logical node's
plan index. No `Decoder` is created. -/
def createPhysicalPlan (conv : ExprConv) (bindings : SchemaBinding) :
    LogicalPlanT → Except RStr PhysicalPlanT
  | .dataSource index source_name aliasName _decoder_kind _schema => do
    let entry ← findBindingEntry source_name aliasName bindings
    .ok (.dataSource index source_name aliasName entry.schema)
  | .filter index predicate children => do
    let pchildren ← createPhysicalPlanList conv bindings children
    let scalar ← conv.toScalar predicate bindings
    .ok (.filter index predicate scalar pchildren)
  | .project index fields children => do
    let pchildren ← createPhysicalPlanList conv bindings children
    let pfields ← createPhysicalFields conv bindings fields
    .ok (.project index pfields pchildren)

/-- Child-by-child recursion of `create_physical_plan`. -/
def createPhysicalPlanList (conv : ExprConv) (bindings : SchemaBinding) :
    LogicalPlanList → Except RStr PhysicalPlanList
  | .nil => .ok .nil
  | .cons hd tl => do
    let phd ← createPhysicalPlan conv bindings hd
    let ptl ← createPhysicalPlanList conv bindings tl
    .ok (.cons phd ptl)

/-- Field-by-field conversion of a logical `Project`'s fields. -/
def createPhysicalFields (conv : ExprConv) (bindings : SchemaBinding) :
    List LogicalProjectFieldM → Except RStr (List PhysicalProjectFieldM)
  | [] => .ok []
  | f :: rest => do
    let pf ← conv.fieldFromLogical f.field_name f.expr bindings
    let prest ← createPhysicalFields conv bindings rest
    .ok (pf :: prest)
end

mutual
/-- Preorder list of `(plan index, kind tag)` of a logical tree
(kind tags: 0 = DataSource, 1 = Filter, 2 = Project). -/
def logicalNodeTags : LogicalPlanT → List (Int × Nat)
  | .dataSource index _ _ _ _ => [(index, 0)]
  | .filter index _ children => (index, 1) :: logicalListNodeTags children
  | .project index _ children => (index, 2) :: logicalListNodeTags children

/-- Preorder tags of a logical child list. -/
def logicalListNodeTags : LogicalPlanList → List (Int × Nat)
  | .nil => []
  | .cons hd tl => logicalNodeTags hd ++ logicalListNodeTags tl
end

mutual
/-- Preorder list of `(plan index, kind tag)` of a physical tree
(kind tags: 0 = DataSource, 1 = Filter, 2 = Project, 3 = Decoder). -/
def physicalNodeTags : PhysicalPlanT → List (Int × Nat)
  | .dataSource index _ _ _ => [(index, 0)]
  | .decoder index _ _ children => (index, 3) :: physicalListNodeTags children
  | .filter index _ _ children => (index, 1) :: physicalListNodeTags children
  | .project index _ children => (index, 2) :: physicalListNodeTags children

/-- Preorder tags of a physical child list. -/
def physicalListNodeTags : PhysicalPlanList → List (Int × Nat)
  | .nil => []
  | .cons hd tl => physicalNodeTags hd ++ physicalListNodeTags tl
end

/-- The number of `Decoder` nodes in a physical tree. -/
def decoderCount (p : PhysicalPlanT) : Nat :=
  ((physicalNodeTags p).filter (fun t => t.2 == 3)).length

/-- The number of `DataSource` nodes in a logical tree. -/
def dataSourceCountL (l : LogicalPlanT) : Nat :=
  ((logicalNodeTags l).filter (fun t => t.2 == 0)).length

/-- A concrete conversion instantiation for the C3 counterexample and
witness (no theorem depends on its behaviour). -/
def exprConv0 : ExprConv :=
  { toScalar := fun _ _ => .ok (.column 0)
    fieldFromLogical := fun name e _ => .ok ⟨name, e⟩ }

/-- The one-column schema of the C3 stream `"stream"`. -/
def c3Schema : Schema := Schema.new [⟨[115, 116, 114, 101, 97, 109], [97], .int64⟩]

/-- The C3 schema bindings: one entry for `"stream"`. -/
def c3Bindings : SchemaBinding :=
  ⟨[⟨[115, 116, 114, 101, 97, 109], none, c3Schema⟩]⟩

/-- The C3 logical tree: `Filter(a > 15)` (index 1) over
`DataSource("stream")` (index 0) with a JSON decoder descriptor. -/
def c3Logical : LogicalPlanT :=
  .filter 1
    (.binaryOp (.ident ⟨[97], none⟩) .gt (.value (.number [49, 53] false)))
    (.cons (.dataSource 0 [115, 116, 114, 101, 97, 109] none
      [106, 115, 111, 110] c3Schema) .nil)

/-- The physical tree the builder produces for `c3Logical`: a
`PhysicalFilter` (index 1) directly over a `PhysicalDataSource` (index 0) —
no Decoder in between. -/
def c3Physical : PhysicalPlanT :=
  .filter 1
    (.binaryOp (.ident ⟨[97], none⟩) .gt (.value (.number [49, 53] false)))
    (.column 0)
    (.cons (.dataSource 0 [115, 116, 114, 101, 97, 109] none c3Schema) .nil)

/-! ## Plan snapshot codec (`flow/src/plan_cache.rs`)

`encode_ir`/`decode_ir` are `bincode::serialize`/`bincode::deserialize` of
the IR types. The serde encodings of the external payload types follow their
crates: `sqlparser` AST nodes use ordinary serde derives (round-trippable);
`serde_json::Value` serializes (`null` as unit, numbers/strings/seqs/maps
natively) but **cannot deserialize** from bincode — its `Deserialize` impl
calls `deserialize_any`, which bincode 1.x rejects
(`DeserializeAnyNotSupported`). `serde_json::Map` deserializes via
`deserialize_map`, so an empty map round-trips while a non-empty one fails on
its first value. -/

/-- UTF-8 encoding of a Unicode scalar value (bincode writes a `char` as its
UTF-8 bytes). -/
def encChar (c : Nat) : List Nat :=
  if c < 0x80 then [c]
  else if c < 0x800 then [0xC0 + c / 64, 0x80 + c % 64]
  else if c < 0x10000 then
    [0xE0 + c / 4096, 0x80 + c / 64 % 64, 0x80 + c % 64]
  else
    [0xF0 + c / 262144, 0x80 + c / 4096 % 64, 0x80 + c / 64 % 64, 0x80 + c % 64]

/-- serde encoding of an `Ident`: value string, then the optional quote
char. -/
def encIdent (i : IdentM) : List Nat :=
  encStr i.value ++ encOption encChar i.quote_style

/-- The variant index of a binary operator (model-internal numbering; the
encoder and decoder below agree on it). -/
def binOpTag : BinOpM → Nat
  | .plus => 0
  | .minus => 1
  | .multiply => 2
  | .divide => 3
  | .gt => 4
  | .lt => 5
  | .gtEq => 6
  | .ltEq => 7
  | .eq => 8
  | .notEq => 9
  | .and => 10
  | .or => 11

/-- serde encoding of a binary operator: its `u32` variant index. -/
def encBinOp (op : BinOpM) : List Nat := encU32 (binOpTag op)

/-- serde encoding of a SQL literal value. -/
def encSqlValue : SqlValueM → List Nat
  | .number digits long => encU32 0 ++ encStr digits ++ encBool long
  | .singleQuotedString s => encU32 1 ++ encStr s

/-- serde encoding of the `Expr` subset: `u32` variant index, then the
payload fields in order. -/
def encExpr : ExprM → List Nat
  | .ident i => encU32 0 ++ encIdent i
  | .compoundIdent parts => encU32 1 ++ encList encIdent parts
  | .binaryOp l op r => encU32 2 ++ encExpr l ++ encBinOp op ++ encExpr r
  | .value v => encU32 3 ++ encSqlValue v

/-- bincode encoding of a `serde_json::Number` (`serialize_i64`/`u64`/`f64`
directly — no tag). -/
def encJsonNumberBytes : JsonNumber → List Nat
  | .posInt n => encU64 n
  | .negInt i => encI64 i
  | .float f => encU64 f.bits

mutual
/-- bincode encoding of a `serde_json::Value` (via its `Serialize` impl):
`null` writes nothing (unit), booleans one byte, numbers their native 8-byte
form, strings/arrays length-prefixed, objects as maps. -/
def encJsonValue : JsonValue → List Nat
  | .null => []
  | .bool b => encBool b
  | .num n => encJsonNumberBytes n
  | .str s => encStr s
  | .arr items => encU64 items.length ++ encJsonValueListBytes items
  | .obj fields => encU64 fields.length ++ encJsonFieldListBytes fields

/-- Element-wise encoding of a JSON array's items. -/
def encJsonValueListBytes : List JsonValue → List Nat
  | [] => []
  | v :: rest => encJsonValue v ++ encJsonValueListBytes rest

/-- Entry-wise encoding of a JSON object (key string, then value). -/
def encJsonFieldListBytes : List (RStr × JsonValue) → List Nat
  | [] => []
  | (k, v) :: rest => encStr k ++ encJsonValue v ++ encJsonFieldListBytes rest
end

/-- bincode encoding of a `serde_json::Map<String, Value>` (`serialize_map`):
`u64` entry count, then key/value pairs. -/
def encJsonMap (m : List (RStr × JsonValue)) : List Nat :=
  encU64 m.length ++ encJsonFieldListBytes m

/-- `CommonSinkPropsIR { batch_count, batch_duration_ms }`. -/
structure CommonSinkPropsIR where
  batch_count : Option Nat
  batch_duration_ms : Option Nat
deriving DecidableEq

/-- `SinkIR` (`plan_cache.rs:27-35`): connector settings are a raw
`serde_json::Value`, encoder props an optional JSON map. -/
structure SinkIR where
  sink_id : RStr
  forward_to_result : Bool
  common : Option CommonSinkPropsIR
  connector_kind : RStr
  connector_settings : JsonValue
  encoder_kind : Option RStr
  encoder_props : Option (List (RStr × JsonValue))

/-- `ProjectFieldIR { field_name, expr }`. -/
structure ProjectFieldIR where
  field_name : RStr
  expr : ExprM
deriving DecidableEq

/-- `AggregateExprIR { output_name, expr }`. -/
structure AggregateExprIR where
  output_name : RStr
  expr : ExprM
deriving DecidableEq

/-- `TimeUnitIR`. -/
inductive TimeUnitIR where
  | seconds
deriving DecidableEq

/-- `WindowIR` (`plan_cache.rs:55-68`); the `State` fields are named `open`,
`emit` and `partition_by` in Rust (`open` is reserved here). -/
inductive WindowIR where
  | tumbling (time_unit : TimeUnitIR) (length : Nat)
  | count (count : Nat)
  | sliding (time_unit : TimeUnitIR) (lookback : Nat) (lookahead : Option Nat)
  | state (openExpr : ExprM) (emitExpr : ExprM) (partition_by : List ExprM)
deriving DecidableEq

/-- `LogicalPlanNodeKindIR` (`plan_cache.rs:84-96`). -/
inductive LogicalPlanNodeKindIR where
  | dataSource (stream : RStr) (aliasName : Option RStr)
  | window (window : WindowIR)
  | aggregation (group_by : List ExprM) (aggregates : List AggregateExprIR)
  | filter (predicate : ExprM)
  | project (fields : List ProjectFieldIR)
  | tail
  | dataSink (sinks : List SinkIR)
  | opaqueNode (plan_type : RStr)

/-- `LogicalPlanNodeIR { index, kind, children }`. -/
structure LogicalPlanNodeIR where
  index : Int
  kind : LogicalPlanNodeKindIR
  children : List Int

/-- `LogicalPlanIR { root, nodes }`. -/
structure LogicalPlanIR where
  root : Int
  nodes : List LogicalPlanNodeIR

/-- `PhysicalPlanNodeKindIR` (`plan_cache.rs:112-130`). -/
inductive PhysicalPlanNodeKindIR where
  | dataSource (stream : RStr) (aliasName : Option RStr)
  | decoder (decoder_kind : RStr) (decoder_props : List (RStr × JsonValue))
  | filter (predicate : ExprM)
  | project (fields : List ProjectFieldIR)
  | encoder (encoder_kind : RStr) (encoder_props : List (RStr × JsonValue))
  | dataSink (sink : SinkIR) (encoder_plan_index : Int)
  | resultCollect
  | opaqueNode (plan_type : RStr)

/-- `PhysicalPlanNodeIR { index, kind, children }`. -/
structure PhysicalPlanNodeIR where
  index : Int
  kind : PhysicalPlanNodeKindIR
  children : List Int

/-- `PhysicalPlanIR { root, nodes }`. -/
structure PhysicalPlanIR where
  root : Int
  nodes : List PhysicalPlanNodeIR

/-- serde encoding of `CommonSinkPropsIR`. -/
def encCommonSinkProps (c : CommonSinkPropsIR) : List Nat :=
  encOption encU64 c.batch_count ++ encOption encU64 c.batch_duration_ms

/-- serde encoding of `SinkIR`, fields in declaration order. -/
def encSinkIR (s : SinkIR) : List Nat :=
  encStr s.sink_id ++ encBool s.forward_to_result ++
    encOption encCommonSinkProps s.common ++ encStr s.connector_kind ++
    encJsonValue s.connector_settings ++ encOption encStr s.encoder_kind ++
    encOption encJsonMap s.encoder_props

/-- serde encoding of `ProjectFieldIR`. -/
def encProjectField (f : ProjectFieldIR) : List Nat :=
  encStr f.field_name ++ encExpr f.expr

/-- serde encoding of `AggregateExprIR`. -/
def encAggregateExpr (a : AggregateExprIR) : List Nat :=
  encStr a.output_name ++ encExpr a.expr

/-- serde encoding of `TimeUnitIR`. -/
def encTimeUnit : TimeUnitIR → List Nat
  | .seconds => encU32 0

/-- serde encoding of `WindowIR`. -/
def encWindow : WindowIR → List Nat
  | .tumbling tu len => encU32 0 ++ encTimeUnit tu ++ encU64 len
  | .count c => encU32 1 ++ encU64 c
  | .sliding tu lb la => encU32 2 ++ encTimeUnit tu ++ encU64 lb ++
      encOption encU64 la
  | .state o e pb => encU32 3 ++ encExpr o ++ encExpr e ++ encList encExpr pb

/-- serde encoding of `LogicalPlanNodeKindIR`. -/
def encLogicalKind : LogicalPlanNodeKindIR → List Nat
  | .dataSource stream aliasName =>
    encU32 0 ++ encStr stream ++ encOption encStr aliasName
  | .window w => encU32 1 ++ encWindow w
  | .aggregation gb ags =>
    encU32 2 ++ encList encExpr gb ++ encList encAggregateExpr ags
  | .filter p => encU32 3 ++ encExpr p
  | .project fs => encU32 4 ++ encList encProjectField fs
  | .tail => encU32 5
  | .dataSink sinks => encU32 6 ++ encList encSinkIR sinks
  | .opaqueNode pt => encU32 7 ++ encStr pt

/-- serde encoding of `LogicalPlanNodeIR`. -/
def encLogicalNode (n : LogicalPlanNodeIR) : List Nat :=
  encI64 n.index ++ encLogicalKind n.kind ++ encList encI64 n.children

/-- `encode_ir` for `LogicalPlanIR` (`plan_cache.rs:164-166`). -/
def encLogicalIR (ir : LogicalPlanIR) : List Nat :=
  encI64 ir.root ++ encList encLogicalNode ir.nodes

/-- serde encoding of `PhysicalPlanNodeKindIR`. -/
def encPhysicalKind : PhysicalPlanNodeKindIR → List Nat
  | .dataSource stream aliasName =>
    encU32 0 ++ encStr stream ++ encOption encStr aliasName
  | .decoder dk props => encU32 1 ++ encStr dk ++ encJsonMap props
  | .filter p => encU32 2 ++ encExpr p
  | .project fs => encU32 3 ++ encList encProjectField fs
  | .encoder ek props => encU32 4 ++ encStr ek ++ encJsonMap props
  | .dataSink sink epi => encU32 5 ++ encSinkIR sink ++ encI64 epi
  | .resultCollect => encU32 6
  | .opaqueNode pt => encU32 7 ++ encStr pt

/-- serde encoding of `PhysicalPlanNodeIR`. -/
def encPhysicalNode (n : PhysicalPlanNodeIR) : List Nat :=
  encI64 n.index ++ encPhysicalKind n.kind ++ encList encI64 n.children

/-- `encode_ir` for `PhysicalPlanIR`. -/
def encPhysicalIR (ir : PhysicalPlanIR) : List Nat :=
  encI64 ir.root ++ encList encPhysicalNode ir.nodes

/-! ### bincode deserialization (the reader side of `decode_ir`) -/

/-- Read one byte. -/
def rdByte : List Nat → Option (Nat × List Nat)
  | [] => none
  | b :: r => some (b, r)

/-- Read a `k`-byte little-endian unsigned integer. -/
def rdLE : Nat → List Nat → Option (Nat × List Nat)
  | 0, s => some (0, s)
  | k + 1, s => do
    let (b, s1) ← rdByte s
    let (n, s2) ← rdLE k s1
    some (b + 256 * n, s2)

/-- Read a `u32`. -/
def rdU32 : List Nat → Option (Nat × List Nat) := rdLE 4

/-- Read a `u64`. -/
def rdU64 : List Nat → Option (Nat × List Nat) := rdLE 8

/-- Read an `i64` (two's complement). -/
def rdI64 (s : List Nat) : Option (Int × List Nat) :=
  (rdU64 s).map fun p =>
    (if p.1 < 2 ^ 63 then (p.1 : Int) else (p.1 : Int) - 2 ^ 64, p.2)

/-- Read a `bool` (bincode rejects bytes other than 0/1). -/
def rdBool (s : List Nat) : Option (Bool × List Nat) := do
  let (b, s1) ← rdByte s
  if b = 0 then some (false, s1)
  else if b = 1 then some (true, s1)
  else none

/-- Split off exactly `n` bytes. -/
def takeExact (n : Nat) (s : List Nat) : Option (List Nat × List Nat) :=
  if n ≤ s.length then some (s.take n, s.drop n) else none

/-- Read a string: `u64` length, then that many bytes. (bincode additionally
validates UTF-8, which holds for every byte sequence produced by encoding a
Rust string.) -/
def rdStr (s : List Nat) : Option (RStr × List Nat) := do
  let (n, s1) ← rdU64 s
  takeExact n s1

/-- Read an `Option<T>` (tag byte 0/1; bincode rejects other tags). -/
def rdOption (p : List Nat → Option (α × List Nat)) (s : List Nat) :
    Option (Option α × List Nat) := do
  let (t, s1) ← rdByte s
  if t = 0 then some (none, s1)
  else if t = 1 then (p s1).map fun q => (some q.1, q.2)
  else none

/-- Read `k` consecutive elements. -/
def rdCount (p : List Nat → Option (α × List Nat)) :
    Nat → List Nat → Option (List α × List Nat)
  | 0, s => some ([], s)
  | k + 1, s => do
    let (x, s1) ← p s
    let (xs, s2) ← rdCount p k s1
    some (x :: xs, s2)

/-- Read a `Vec<T>`: `u64` length, then the elements. -/
def rdList (p : List Nat → Option (α × List Nat)) (s : List Nat) :
    Option (List α × List Nat) := do
  let (n, s1) ← rdU64 s
  rdCount p n s1

/-- Read a `char` (one UTF-8 scalar; a stray continuation byte fails). -/
def rdChar (s : List Nat) : Option (Nat × List Nat) := do
  let (b0, s1) ← rdByte s
  if b0 < 0x80 then some (b0, s1)
  else if b0 < 0xC0 then none
  else if b0 < 0xE0 then do
    let (b1, s2) ← rdByte s1
    some ((b0 - 0xC0) * 64 + (b1 - 0x80), s2)
  else if b0 < 0xF0 then do
    let (b1, s2) ← rdByte s1
    let (b2, s3) ← rdByte s2
    some ((b0 - 0xE0) * 4096 + (b1 - 0x80) * 64 + (b2 - 0x80), s3)
  else do
    let (b1, s2) ← rdByte s1
    let (b2, s3) ← rdByte s2
    let (b3, s4) ← rdByte s3
    some ((b0 - 0xF0) * 262144 + (b1 - 0x80) * 4096 + (b2 - 0x80) * 64 +
      (b3 - 0x80), s4)

/-- Read an `Ident`. -/
def rdIdent (s : List Nat) : Option (IdentM × List Nat) := do
  let (v, s1) ← rdStr s
  let (q, s2) ← rdOption rdChar s1
  some (⟨v, q⟩, s2)

/-- Read a binary operator from its variant index. -/
def rdBinOp (s : List Nat) : Option (BinOpM × List Nat) := do
  let (t, s1) ← rdU32 s
  match t with
  | 0 => some (.plus, s1)
  | 1 => some (.minus, s1)
  | 2 => some (.multiply, s1)
  | 3 => some (.divide, s1)
  | 4 => some (.gt, s1)
  | 5 => some (.lt, s1)
  | 6 => some (.gtEq, s1)
  | 7 => some (.ltEq, s1)
  | 8 => some (.eq, s1)
  | 9 => some (.notEq, s1)
  | 10 => some (.and, s1)
  | 11 => some (.or, s1)
  | _ => none

/-- Read a SQL literal value. -/
def rdSqlValue (s : List Nat) : Option (SqlValueM × List Nat) := do
  let (t, s1) ← rdU32 s
  match t with
  | 0 => do
    let (d, s2) ← rdStr s1
    let (l, s3) ← rdBool s2
    some (.number d l, s3)
  | 1 => (rdStr s1).map fun q => (.singleQuotedString q.1, q.2)
  | _ => none

/-- Fuelled `Expr` reader; the fuel only bounds recursion into
subexpressions. -/
def rdExprGo : Nat → List Nat → Option (ExprM × List Nat)
  | 0, _ => none
  | fuel + 1, s => do
    let (t, s1) ← rdU32 s
    match t with
    | 0 => (rdIdent s1).map fun q => (.ident q.1, q.2)
    | 1 => (rdList rdIdent s1).map fun q => (.compoundIdent q.1, q.2)
    | 2 => do
      let (l, s2) ← rdExprGo fuel s1
      let (op, s3) ← rdBinOp s2
      let (r, s4) ← rdExprGo fuel s3
      some (.binaryOp l op r, s4)
    | 3 => (rdSqlValue s1).map fun q => (.value q.1, q.2)
    | _ => none

/-- Read an `Expr`; the remaining input length bounds the recursion depth
(every subexpression encoding consumes at least one byte per level). -/
def rdExpr (s : List Nat) : Option (ExprM × List Nat) := rdExprGo s.length s

/-- Read a `serde_json::Value` from bincode: always fails —
`Value::deserialize` calls `deserialize_any`, which bincode does not support
(`DeserializeAnyNotSupported`). -/
def rdJsonValue : List Nat → Option (JsonValue × List Nat) := fun _ => none

/-- Read one JSON-map entry (key, then value — the value read fails). -/
def rdJsonMapEntry (s : List Nat) : Option ((RStr × JsonValue) × List Nat) := do
  let (k, s1) ← rdStr s
  let (v, s2) ← rdJsonValue s1
  some ((k, v), s2)

/-- Read a `serde_json::Map<String, Value>` (`deserialize_map` is supported):
the entry count, then the entries — so only the empty map parses. -/
def rdJsonMap (s : List Nat) : Option (List (RStr × JsonValue) × List Nat) := do
  let (n, s1) ← rdU64 s
  rdCount rdJsonMapEntry n s1

/-- Read a `CommonSinkPropsIR`. -/
def rdCommonSinkProps (s : List Nat) :
    Option (CommonSinkPropsIR × List Nat) := do
  let (bc, s1) ← rdOption rdU64 s
  let (bd, s2) ← rdOption rdU64 s1
  some (⟨bc, bd⟩, s2)

/-- Read a `SinkIR` — fails at `connector_settings` (a raw
`serde_json::Value`). -/
def rdSinkIR (s : List Nat) : Option (SinkIR × List Nat) := do
  let (sid, s1) ← rdStr s
  let (fwd, s2) ← rdBool s1
  let (common, s3) ← rdOption rdCommonSinkProps s2
  let (ck, s4) ← rdStr s3
  let (settings, s5) ← rdJsonValue s4
  let (ek, s6) ← rdOption rdStr s5
  let (ep, s7) ← rdOption rdJsonMap s6
  some (⟨sid, fwd, common, ck, settings, ek, ep⟩, s7)

/-- Read a `ProjectFieldIR`. -/
def rdProjectField (s : List Nat) : Option (ProjectFieldIR × List Nat) := do
  let (n, s1) ← rdStr s
  let (e, s2) ← rdExpr s1
  some (⟨n, e⟩, s2)

/-- Read an `AggregateExprIR`. -/
def rdAggregateExpr (s : List Nat) : Option (AggregateExprIR × List Nat) := do
  let (n, s1) ← rdStr s
  let (e, s2) ← rdExpr s1
  some (⟨n, e⟩, s2)

/-- Read a `TimeUnitIR`. -/
def rdTimeUnit (s : List Nat) : Option (TimeUnitIR × List Nat) := do
  let (t, s1) ← rdU32 s
  match t with
  | 0 => some (.seconds, s1)
  | _ => none

/-- Read a `WindowIR`. -/
def rdWindow (s : List Nat) : Option (WindowIR × List Nat) := do
  let (t, s1) ← rdU32 s
  match t with
  | 0 => do
    let (tu, s2) ← rdTimeUnit s1
    let (len, s3) ← rdU64 s2
    some (.tumbling tu len, s3)
  | 1 => (rdU64 s1).map fun q => (.count q.1, q.2)
  | 2 => do
    let (tu, s2) ← rdTimeUnit s1
    let (lb, s3) ← rdU64 s2
    let (la, s4) ← rdOption rdU64 s3
    some (.sliding tu lb la, s4)
  | 3 => do
    let (o, s2) ← rdExpr s1
    let (e, s3) ← rdExpr s2
    let (pb, s4) ← rdList rdExpr s3
    some (.state o e pb, s4)
  | _ => none

/-- Read a `LogicalPlanNodeKindIR`. -/
def rdLogicalKind (s : List Nat) :
    Option (LogicalPlanNodeKindIR × List Nat) := do
  let (t, s1) ← rdU32 s
  match t with
  | 0 => do
    let (stream, s2) ← rdStr s1
    let (an, s3) ← rdOption rdStr s2
    some (.dataSource stream an, s3)
  | 1 => (rdWindow s1).map fun q => (.window q.1, q.2)
  | 2 => do
    let (gb, s2) ← rdList rdExpr s1
    let (ags, s3) ← rdList rdAggregateExpr s2
    some (.aggregation gb ags, s3)
  | 3 => (rdExpr s1).map fun q => (.filter q.1, q.2)
  | 4 => (rdList rdProjectField s1).map fun q => (.project q.1, q.2)
  | 5 => some (.tail, s1)
  | 6 => (rdList rdSinkIR s1).map fun q => (.dataSink q.1, q.2)
  | 7 => (rdStr s1).map fun q => (.opaqueNode q.1, q.2)
  | _ => none

/-- Read a `LogicalPlanNodeIR`. -/
def rdLogicalNode (s : List Nat) : Option (LogicalPlanNodeIR × List Nat) := do
  let (i, s1) ← rdI64 s
  let (k, s2) ← rdLogicalKind s1
  let (cs, s3) ← rdList rdI64 s2
  some (⟨i, k, cs⟩, s3)

/-- Read a `LogicalPlanIR`. -/
def rdLogicalIR (s : List Nat) : Option (LogicalPlanIR × List Nat) := do
  let (r, s1) ← rdI64 s
  let (ns, s2) ← rdList rdLogicalNode s1
  some (⟨r, ns⟩, s2)

/-- Read a `PhysicalPlanNodeKindIR`. -/
def rdPhysicalKind (s : List Nat) :
    Option (PhysicalPlanNodeKindIR × List Nat) := do
  let (t, s1) ← rdU32 s
  match t with
  | 0 => do
    let (stream, s2) ← rdStr s1
    let (an, s3) ← rdOption rdStr s2
    some (.dataSource stream an, s3)
  | 1 => do
    let (dk, s2) ← rdStr s1
    let (props, s3) ← rdJsonMap s2
    some (.decoder dk props, s3)
  | 2 => (rdExpr s1).map fun q => (.filter q.1, q.2)
  | 3 => (rdList rdProjectField s1).map fun q => (.project q.1, q.2)
  | 4 => do
    let (ek, s2) ← rdStr s1
    let (props, s3) ← rdJsonMap s2
    some (.encoder ek props, s3)
  | 5 => do
    let (sink, s2) ← rdSinkIR s1
    let (epi, s3) ← rdI64 s2
    some (.dataSink sink epi, s3)
  | 6 => some (.resultCollect, s1)
  | 7 => (rdStr s1).map fun q => (.opaqueNode q.1, q.2)
  | _ => none

/-- Read a `PhysicalPlanNodeIR`. -/
def rdPhysicalNode (s : List Nat) :
    Option (PhysicalPlanNodeIR × List Nat) := do
  let (i, s1) ← rdI64 s
  let (k, s2) ← rdPhysicalKind s1
  let (cs, s3) ← rdList rdI64 s2
  some (⟨i, k, cs⟩, s3)

/-- Read a `PhysicalPlanIR`. -/
def rdPhysicalIR (s : List Nat) : Option (PhysicalPlanIR × List Nat) := do
  let (r, s1) ← rdI64 s
  let (ns, s2) ← rdList rdPhysicalNode s1
  some (⟨r, ns⟩, s2)

/-- `PlanCacheCodecError` (`plan_cache.rs:12-18`): only `Serialize` and
`Deserialize` exist (each carries the bincode error's message string in Rust,
which no claim inspects). -/
inductive PlanCacheCodecError where
  | serialize
  | deserialize
deriving DecidableEq

/-- `decode_ir` for the logical IR (`plan_cache.rs:168-170`): bincode
deserialization; any failure is a `Deserialize` error. -/
def decodeLogicalIR (raw : List Nat) :
    Except PlanCacheCodecError LogicalPlanIR :=
  match rdLogicalIR raw with
  | some (ir, _) => .ok ir
  | none => .error .deserialize

/-- `decode_ir` for the physical IR. -/
def decodePhysicalIR (raw : List Nat) :
    Except PlanCacheCodecError PhysicalPlanIR :=
  match rdPhysicalIR raw with
  | some (ir, _) => .ok ir
  | none => .error .deserialize

/-- `PlanSnapshotBytes { fingerprint, flow_build_id, logical_plan_ir,
physical_plan_ir }` (`plan_cache.rs:132-138`). -/
structure PlanSnapshotBytes where
  fingerprint : RStr
  flow_build_id : RStr
  logical_plan_ir : List Nat
  physical_plan_ir : List Nat

/-- `PlanSnapshotBytes::new` (`plan_cache.rs:140-153`): encode both IRs
(serialization of these IR types cannot fail, so the result is always
`Ok`). -/
def planSnapshotBytesNew (fingerprint flow_build_id : RStr)
    (logical : LogicalPlanIR) (physical : PhysicalPlanIR) :
    Except PlanCacheCodecError PlanSnapshotBytes :=
  .ok ⟨fingerprint, flow_build_id, encLogicalIR logical, encPhysicalIR physical⟩

/-- `PlanSnapshotBytes::decode_logical`. -/
def PlanSnapshotBytes.decodeLogical (s : PlanSnapshotBytes) :
    Except PlanCacheCodecError LogicalPlanIR :=
  decodeLogicalIR s.logical_plan_ir

/-- `PlanSnapshotBytes::decode_physical`. -/
def PlanSnapshotBytes.decodePhysical (s : PlanSnapshotBytes) :
    Except PlanCacheCodecError PhysicalPlanIR :=
  decodePhysicalIR s.physical_plan_ir

/-! ### Well-formedness of IR values

`Rust`-side values always satisfy these bounds (`usize` lengths below `2^64`,
`i64` indices in range, `char`s below `0x110000`); the Lean types are larger,
so the round-trip theorem carries them as hypotheses. `decodable…` predicates
additionally exclude the payloads that bincode cannot deserialize
(`serde_json::Value` in `DataSink` nodes, non-empty JSON maps in
`Decoder`/`Encoder` nodes). -/

/-- A string a Rust `String` can hold: length below `2^64`. -/
def wfStrB (s : RStr) : Bool := decide (s.length < 2 ^ 64)

/-- A valid `char` scalar bound. -/
def wfCharB (c : Nat) : Bool := decide (c < 0x110000)

/-- Well-formed identifier. -/
def wfIdentB (i : IdentM) : Bool :=
  wfStrB i.value &&
    (match i.quote_style with
     | none => true
     | some c => wfCharB c)

/-- A `usize` length bound. -/
def wfLenB (n : Nat) : Bool := decide (n < 2 ^ 64)

/-- An `i64`-range integer. -/
def wfI64B (i : Int) : Bool := decide (i64Min ≤ i) && decide (i ≤ i64Max)

/-- Well-formed expression. -/
def wfExprB : ExprM → Bool
  | .ident i => wfIdentB i
  | .compoundIdent parts => wfLenB parts.length && parts.all wfIdentB
  | .binaryOp l _ r => wfExprB l && wfExprB r
  | .value v =>
    match v with
    | .number d _ => wfStrB d
    | .singleQuotedString s => wfStrB s

/-- Well-formed optional string. -/
def wfOptStrB : Option RStr → Bool
  | none => true
  | some s => wfStrB s

/-- Well-formed project field. -/
def wfProjectFieldB (f : ProjectFieldIR) : Bool :=
  wfStrB f.field_name && wfExprB f.expr

/-- Well-formed aggregate mapping. -/
def wfAggExprB (a : AggregateExprIR) : Bool :=
  wfStrB a.output_name && wfExprB a.expr

/-- Well-formed window spec. -/
def wfWindowB : WindowIR → Bool
  | .tumbling _ len => decide (len < 2 ^ 64)
  | .count c => decide (c < 2 ^ 64)
  | .sliding _ lb la =>
    decide (lb < 2 ^ 64) &&
      (match la with
       | none => true
       | some x => decide (x < 2 ^ 64))
  | .state o e pb =>
    wfExprB o && wfExprB e && wfLenB pb.length && pb.all wfExprB

/-- Logical node kinds that bincode can round-trip (everything except
`DataSink`, whose `SinkIR` carries a raw `serde_json::Value`). -/
def decodableLogicalKindB : LogicalPlanNodeKindIR → Bool
  | .dataSource stream an => wfStrB stream && wfOptStrB an
  | .window w => wfWindowB w
  | .aggregation gb ags =>
    wfLenB gb.length && gb.all wfExprB && wfLenB ags.length &&
      ags.all wfAggExprB
  | .filter p => wfExprB p
  | .project fs => wfLenB fs.length && fs.all wfProjectFieldB
  | .tail => true
  | .dataSink _ => false
  | .opaqueNode pt => wfStrB pt

/-- Decodable logical node. -/
def decodableLogicalNodeB (n : LogicalPlanNodeIR) : Bool :=
  wfI64B n.index && decodableLogicalKindB n.kind &&
    wfLenB n.children.length && n.children.all wfI64B

/-- Decodable logical IR. -/
def decodableLogicalIRB (ir : LogicalPlanIR) : Bool :=
  wfI64B ir.root && wfLenB ir.nodes.length &&
    ir.nodes.all decodableLogicalNodeB

/-- Physical node kinds that bincode can round-trip (everything except
`DataSink`; `Decoder`/`Encoder` only with empty JSON props, since a non-empty
`serde_json::Map` fails on its first `Value`). -/
def decodablePhysicalKindB : PhysicalPlanNodeKindIR → Bool
  | .dataSource stream an => wfStrB stream && wfOptStrB an
  | .decoder dk props => wfStrB dk && props.isEmpty
  | .filter p => wfExprB p
  | .project fs => wfLenB fs.length && fs.all wfProjectFieldB
  | .encoder ek props => wfStrB ek && props.isEmpty
  | .dataSink _ _ => false
  | .resultCollect => true
  | .opaqueNode pt => wfStrB pt

/-- Decodable physical node. -/
def decodablePhysicalNodeB (n : PhysicalPlanNodeIR) : Bool :=
  wfI64B n.index && decodablePhysicalKindB n.kind &&
    wfLenB n.children.length && n.children.all wfI64B

/-- Decodable physical IR. -/
def decodablePhysicalIRB (ir : PhysicalPlanIR) : Bool :=
  wfI64B ir.root && wfLenB ir.nodes.length &&
    ir.nodes.all decodablePhysicalNodeB

/-- A `SinkIR` with JSON `null` connector settings, as the planner produces
for a sink with no settings. -/
def c1SinkIR : SinkIR :=
  ⟨[115, 49], false, none, [109, 113, 116, 116], .null, none, none⟩

/-- A logical IR whose single node is a `DataSink` — the planner emits one
for every pipeline with sinks. -/
def c1BadLir : LogicalPlanIR := ⟨0, [⟨0, .dataSink [c1SinkIR], []⟩]⟩

/-- A one-node physical IR (`ResultCollect`). -/
def c1GoodPir : PhysicalPlanIR := ⟨0, [⟨0, .resultCollect, []⟩]⟩

/-- A decodable logical IR: `DataSource` under a `Filter` root. -/
def c1Lir : LogicalPlanIR :=
  ⟨1, [⟨0, .dataSource [115, 49] none, []⟩,
       ⟨1, .filter (.ident ⟨[97], none⟩), [0]⟩]⟩

/-- A decodable physical IR: `DataSource`, a `Decoder` with empty props
above it, and a `ResultCollect` root. -/
def c1Pir : PhysicalPlanIR :=
  ⟨2, [⟨0, .dataSource [115, 49] none, []⟩,
       ⟨1, .decoder [106, 115, 111, 110] [], [0]⟩,
       ⟨2, .resultCollect, [1]⟩]⟩

/-! ## Theorems -/

/-- If two `f32`s are equal under the code's float comparison
(`(a.is_nan() && b.is_nan()) || a == b`), they feed the hasher the same
payload write. -/
theorem f32HashPayload_congr (a b : F32)
    (h : ((f32IsNan a && f32IsNan b) || f32Eq a b) = true) :
    f32HashPayload a = f32HashPayload b := by
  rcases Bool.or_eq_true_iff.mp h with hnan | heq
  · rcases Bool.and_eq_true_iff.mp hnan with ⟨ha, hb⟩
    simp [f32HashPayload, ha, hb]
  · rcases Bool.and_eq_true_iff.mp heq with ⟨hab, hrest⟩
    rcases Bool.and_eq_true_iff.mp hab with ⟨hna, hnb⟩
    rcases Bool.or_eq_true_iff.mp hrest with hbits | hzero
    · have hb : a.bits = b.bits := eq_of_beq hbits
      have hab : a = b := by cases a; cases b; simp_all
      simp [hab]
    · rcases Bool.and_eq_true_iff.mp hzero with ⟨hza, hzb⟩
      simp only [Bool.not_eq_true'] at hna hnb
      simp [f32HashPayload, hna, hnb, hza, hzb]

/-- If two `f64`s are equal under the code's float comparison, they feed the
hasher the same payload write. -/
theorem f64HashPayload_congr (a b : F64)
    (h : ((f64IsNan a && f64IsNan b) || f64Eq a b) = true) :
    f64HashPayload a = f64HashPayload b := by
  rcases Bool.or_eq_true_iff.mp h with hnan | heq
  · rcases Bool.and_eq_true_iff.mp hnan with ⟨ha, hb⟩
    simp [f64HashPayload, ha, hb]
  · rcases Bool.and_eq_true_iff.mp heq with ⟨hab, hrest⟩
    rcases Bool.and_eq_true_iff.mp hab with ⟨hna, hnb⟩
    rcases Bool.or_eq_true_iff.mp hrest with hbits | hzero
    · have hb : a.bits = b.bits := eq_of_beq hbits
      have hab : a = b := by cases a; cases b; simp_all
      simp [hab]
    · rcases Bool.and_eq_true_iff.mp hzero with ⟨hza, hzb⟩
      simp only [Bool.not_eq_true'] at hna hnb
      simp [f64HashPayload, hna, hnb, hza, hzb]

/-- Auxiliary strong induction (on term size) for the hash–equals contract,
carried simultaneously for values and item vectors. -/
theorem hash_eq_of_valueEq_aux :
    ∀ n : Nat,
      (∀ a b : Value, sizeOf a ≤ n → valueEq a b = true →
        hashValue a = hashValue b) ∧
      (∀ xs ys : ValueList, sizeOf xs ≤ n → valueListEq xs ys = true →
        hashValueList xs = hashValueList ys ∧ xs.length = ys.length) := by
  intro n
  induction n using Nat.strong_induction_on with
  | _ n ih =>
    constructor
    · intro a b hsz heq
      cases a <;> cases b <;> simp only [valueEq] at heq <;>
        try exact Bool.noConfusion heq
      case null.null => rfl
      case float32.float32 x y => simp [hashValue, f32HashPayload_congr x y heq]
      case float64.float64 x y => simp [hashValue, f64HashPayload_congr x y heq]
      case int8.int8 x y => simp only [beq_iff_eq] at heq; rw [heq]
      case int16.int16 x y => simp only [beq_iff_eq] at heq; rw [heq]
      case int32.int32 x y => simp only [beq_iff_eq] at heq; rw [heq]
      case int64.int64 x y => simp only [beq_iff_eq] at heq; rw [heq]
      case uint8.uint8 x y => simp only [beq_iff_eq] at heq; rw [heq]
      case uint16.uint16 x y => simp only [beq_iff_eq] at heq; rw [heq]
      case uint32.uint32 x y => simp only [beq_iff_eq] at heq; rw [heq]
      case uint64.uint64 x y => simp only [beq_iff_eq] at heq; rw [heq]
      case string.string x y => simp only [beq_iff_eq] at heq; rw [heq]
      case bool.bool x y => simp only [beq_iff_eq] at heq; rw [heq]
      case struct.struct s t =>
        cases s with
        | mk items fields =>
          cases t with
          | mk items' fields' =>
            simp only [structValueEq, Bool.and_eq_true, beq_iff_eq] at heq
            obtain ⟨hitems, hfields⟩ := heq
            have hlt : sizeOf items < n := by
              have : sizeOf items < sizeOf (Value.struct (.mk items fields)) := by
                simp; try omega
              omega
            obtain ⟨hhash, hlen⟩ := (ih _ hlt).2 items items' le_rfl hitems
            simp [hashValue, hashStructValue, hhash, hlen, hfields]
      case list.list s t =>
        cases s with
        | mk items dt =>
          cases t with
          | mk items' dt' =>
            simp only [listValueEq, Bool.and_eq_true, beq_iff_eq] at heq
            obtain ⟨hitems, hdt⟩ := heq
            have hlt : sizeOf items < n := by
              have : sizeOf items < sizeOf (Value.list (.mk items dt)) := by
                simp; try omega
              omega
            obtain ⟨hhash, hlen⟩ := (ih _ hlt).2 items items' le_rfl hitems
            simp [hashValue, hashListValue, hhash, hlen, hdt]
    · intro xs ys hsz heq
      cases xs <;> cases ys <;> simp only [valueListEq] at heq <;>
        try exact Bool.noConfusion heq
      case nil.nil => exact ⟨rfl, rfl⟩
      case cons.cons hd tl hd' tl' =>
        simp only [Bool.and_eq_true] at heq
        obtain ⟨hhd, htl⟩ := heq
        have hlt1 : sizeOf hd < n := by
          have : sizeOf hd < sizeOf (ValueList.cons hd tl) := by simp; try omega
          omega
        have hlt2 : sizeOf tl < n := by
          have : sizeOf tl < sizeOf (ValueList.cons hd tl) := by simp; try omega
          omega
        have h1 := (ih _ hlt1).1 hd hd' le_rfl hhd
        obtain ⟨h2, h3⟩ := (ih _ hlt2).2 tl tl' le_rfl htl
        exact ⟨by simp [hashValueList, h1, h2], by simp [ValueList.length, h3]⟩

/-- C5: `Value` equality (which treats NaN as equal to NaN for both float
widths) implies equal hasher write sequences — hence equal hashes under any
hasher; NaN floats hash to the fixed `uN::MAX` sentinel; `+0.0` and `-0.0`
hash identically. -/
theorem value_hash_equals_contract :
    (∀ a b : Value, valueEq a b = true → hashValue a = hashValue b) ∧
    (∀ v : F32, f32IsNan v = true →
      hashValue (.float32 v) = [.u8 1, .u32 (2 ^ 32 - 1)]) ∧
    (∀ v : F64, f64IsNan v = true →
      hashValue (.float64 v) = [.u8 2, .u64 (2 ^ 64 - 1)]) ∧
    hashValue (.float32 f32PosZero) = hashValue (.float32 f32NegZero) ∧
    hashValue (.float64 f64PosZero) = hashValue (.float64 f64NegZero) := by
  refine ⟨fun a b h => (hash_eq_of_valueEq_aux (sizeOf a)).1 a b le_rfl h,
    ?_, ?_, ?_, ?_⟩
  · intro v hv; simp [hashValue, f32HashPayload, hv]
  · intro v hv; simp [hashValue, f64HashPayload, hv]
  · decide
  · decide

/-- Witness for C5 at concrete inputs: two distinct NaN bit patterns are
`Value`-equal and hash identically, and the NaN sentinel facts hold at a
concrete NaN. -/
theorem value_hash_equals_contract_witness :
    hashValue (.float64 f64NanA) = hashValue (.float64 f64NanB) ∧
    hashValue (.float32 f32NanA) = [.u8 1, .u32 (2 ^ 32 - 1)] ∧
    hashValue (.float64 f64NanA) = [.u8 2, .u64 (2 ^ 64 - 1)] :=
  ⟨value_hash_equals_contract.1 (.float64 f64NanA) (.float64 f64NanB)
    (by simp only [valueEq]; decide),
   value_hash_equals_contract.2.1 f32NanA (by decide),
   value_hash_equals_contract.2.2.1 f64NanA (by decide)⟩

/-- C4 counterexample: `1.5f64` (bits `0x3FF8000000000000`) has a nonzero
fractional part, yet `Int64Type::try_cast` returns `Some(Int64(1))` — the
`as i64` cast truncates instead of rejecting. -/
theorem int64_try_cast_fractional_not_rejected :
    int64TypeTryCast (.float64 ⟨0x3FF8000000000000⟩) = some (.int64 1) ∧
    f64IsIntegral ⟨0x3FF8000000000000⟩ = false := by
  constructor
  · decide
  · decide

/-- C4 (amended): `Int64Type::try_cast` on a `Float64` never returns `None`;
it always yields `Some(Int64(v as i64))`, where the cast maps NaN to 0,
truncates toward zero and saturates at the `i64` bounds; in particular, when
`v` is integral and its integer part lies in the `i64` range the result is
exactly that integer. -/
theorem int64_try_cast_float64_saturates (v : F64) :
    int64TypeTryCast (.float64 v) = some (.int64 (f64AsI64 v)) ∧
    (f64IsIntegral v = true → i64Min ≤ f64TruncInt v → f64TruncInt v ≤ i64Max →
      int64TypeTryCast (.float64 v) = some (.int64 (f64TruncInt v))) := by
  refine ⟨rfl, fun hint hlo hhi => ?_⟩
  have hnan : f64IsNan v = false := by
    simp only [f64IsIntegral, Bool.and_eq_true, Bool.not_eq_true'] at hint
    exact hint.1.1
  have hinf : f64IsInf v = false := by
    simp only [f64IsIntegral, Bool.and_eq_true, Bool.not_eq_true'] at hint
    exact hint.1.2
  simp only [int64TypeTryCast, f64AsI64, hnan, hinf, Bool.false_eq_true,
    if_false]
  rw [max_eq_right hlo, min_eq_right hhi]

/-- C4 amended-claim witness: `2.0f64` (bits `0x4000000000000000`) is integral
and in range, and the cast yields exactly `Int64(2)`. -/
theorem int64_try_cast_float64_saturates_witness :
    int64TypeTryCast (.float64 ⟨0x4000000000000000⟩) = some (.int64 2) := by
  have h := (int64_try_cast_float64_saturates ⟨0x4000000000000000⟩).2
    (by decide) (by decide) (by decide)
  have ht : f64TruncInt ⟨0x4000000000000000⟩ = 2 := by decide
  rw [ht] at h
  exact h

/-- Lookup after insert: the inserted key maps to the new value, other keys
are unaffected. -/
theorem lookupEntry_insertEntry (m : List (RStr × Nat)) (k : RStr) (v : Nat)
    (q : RStr) :
    lookupEntry (insertEntry m k v) q =
      if k = q then some v else lookupEntry m q := by
  induction m with
  | nil => simp [insertEntry, lookupEntry]
  | cons hd rest ih =>
    obtain ⟨k0, v0⟩ := hd
    by_cases h0 : k0 = k
    · subst h0
      by_cases hq : k0 = q <;> simp [insertEntry, lookupEntry, hq]
    · by_cases hq : k0 = q
      · subst hq
        have : ¬k = k0 := fun h => h0 h.symm
        simp [insertEntry, lookupEntry, h0, this]
      · simp [insertEntry, lookupEntry, h0, hq, ih]

/-- Enumerating a vector with one element appended. -/
theorem enumColumns_concat (i : Nat) (cols : List ColumnSchema)
    (c : ColumnSchema) :
    enumColumns i (cols ++ [c]) = enumColumns i cols ++ [(c, i + cols.length)] := by
  induction cols generalizing i with
  | nil => simp [enumColumns]
  | cons hd tl ih =>
    simp [enumColumns, ih, Nat.add_assoc, Nat.add_comm 1 tl.length]

/-- Appending a column performs one more `HashMap` insert at index
`cols.length`. -/
theorem buildNameToIndex_concat (cols : List ColumnSchema) (c : ColumnSchema) :
    buildNameToIndex (cols ++ [c]) =
      insertEntry (buildNameToIndex cols) c.name cols.length := by
  simp [buildNameToIndex, enumColumns_concat, List.foldl_append]

/-- Every index stored in the `name_to_index` map of `Schema::new` is in
bounds. -/
theorem lookup_buildNameToIndex_lt (cols : List ColumnSchema) (q : RStr)
    (i : Nat) (h : lookupEntry (buildNameToIndex cols) q = some i) :
    i < cols.length := by
  induction cols using List.reverseRecOn generalizing i with
  | nil => simp [buildNameToIndex, enumColumns, lookupEntry] at h
  | append_singleton cols c ih =>
    rw [buildNameToIndex_concat, lookupEntry_insertEntry] at h
    by_cases hn : c.name = q
    · simp only [hn, if_pos rfl] at h
      cases h
      simp
    · rw [if_neg hn] at h
      have := ih i h
      simp
      omega

/-- C7 (amended): with duplicate column names, `column_schema_by_name` returns
the **last** column bearing the name — `Schema::new` builds the name→index
map by successive `HashMap` inserts, so a later duplicate overwrites an
earlier one. (No `(source, name)`-pair lookup exists on `Schema`.) -/
theorem schema_lookup_by_name_returns_last_match (cols : List ColumnSchema)
    (name : RStr) :
    (Schema.new cols).columnSchemaByName name =
      (cols.filter (fun c => c.name == name)).getLast? := by
  induction cols using List.reverseRecOn with
  | nil => simp [Schema.new, Schema.columnSchemaByName, buildNameToIndex,
      enumColumns, lookupEntry]
  | append_singleton cols c ih =>
    simp only [Schema.new, Schema.columnSchemaByName] at ih ⊢
    rw [buildNameToIndex_concat, lookupEntry_insertEntry]
    by_cases hn : c.name = name
    · rw [if_pos hn]
      simp only [Option.bind_eq_bind, Option.some_bind]
      rw [List.getElem?_concat_length]
      simp [List.filter_append, hn]
    · rw [if_neg hn]
      have hfilter :
          (cols ++ [c]).filter (fun c => c.name == name) =
            cols.filter (fun c => c.name == name) := by
        simp [List.filter_append, hn]
      rw [hfilter, ← ih]
      cases hl : lookupEntry (buildNameToIndex cols) name with
      | none => simp
      | some i =>
        have hi := lookup_buildNameToIndex_lt cols name i hl
        simp only [Option.bind_eq_bind, Option.some_bind]
        rw [List.getElem?_append, if_pos hi]

/-- C7 counterexample: a schema with two columns both named `"a"` (sources
`"s1"` and `"s2"`); lookup by name returns the second (`"s2"`) column, not the
first. -/
theorem schema_dup_name_lookup_returns_second :
    (Schema.new [⟨[115, 49], [97], .int64⟩, ⟨[115, 50], [97], .string⟩]
      ).columnSchemaByName [97] = some ⟨[115, 50], [97], .string⟩ ∧
    (([⟨[115, 49], [97], .int64⟩, ⟨[115, 50], [97], .string⟩] :
        List ColumnSchema).head?) = some ⟨[115, 49], [97], .int64⟩ := by
  constructor
  · decide
  · decide

/-- A default for a primitive datatype is never `Value::Null`. -/
theorem getDefaultValue_primitive_not_null (std : RustStd)
    (dt : ConcreteDatatype) (h : dt.isPrimitive = true) :
    getDefaultValue std dt ≠ .null := by
  cases dt <;> simp_all [getDefaultValue, ConcreteDatatype.isPrimitive]

/-- `json_value_to_value` never succeeds with `Value::Null` on a primitive
target datatype: every successful arm returns an explicit non-null
constructor, and the JSON-`null` arm returns the datatype default. -/
theorem jsonValueToValue_ok_not_null (std : RustStd) (j : JsonValue)
    (dt : ConcreteDatatype) (v : Value) (hprim : dt.isPrimitive = true)
    (h : jsonValueToValue std j dt = .ok v) : v ≠ .null := by
  cases j <;> cases dt <;>
    simp only [jsonValueToValue] at h <;>
    (try (repeat' split at h)) <;>
    (try (cases h)) <;>
    simp_all [getDefaultValue, ConcreteDatatype.isPrimitive]

/-- Specification of the per-column loop of `Tuple::new_from_json`: one value
per column; absent and JSON-`null` columns take the datatype default; with
primitive column types no produced value is `Value::Null`. -/
theorem buildValues_spec (std : RustStd) (fields : List (RStr × JsonValue)) :
    ∀ (cols : List ColumnSchema) (vs : List Value),
      buildValues std fields cols = .ok vs →
      vs.length = cols.length ∧
      (∀ (i : Nat) (c : ColumnSchema), cols[i]? = some c →
        (objGet fields c.name = none ∨ objGet fields c.name = some .null) →
        vs[i]? = some (getDefaultValue std c.data_type)) ∧
      ((∀ c ∈ cols, c.data_type.isPrimitive = true) → ∀ v ∈ vs, v ≠ .null) := by
  intro cols
  induction cols with
  | nil =>
    intro vs h
    simp only [buildValues] at h
    cases h
    refine ⟨rfl, ?_, ?_⟩
    · intro i c hc
      simp at hc
    · intro _ v hv
      simp at hv
  | cons col rest ih =>
    intro vs h
    simp only [buildValues, bind, Except.bind] at h
    cases hget : objGet fields col.name with
    | some jv =>
      simp only [hget] at h
      cases hjv : jsonValueToValue std jv col.data_type with
      | error e => simp [hjv] at h
      | ok v0 =>
        simp only [hjv] at h
        cases hrest : buildValues std fields rest with
        | error e => simp [hrest] at h
        | ok vs0 =>
          simp only [hrest] at h
          have hv : v0 :: vs0 = vs := Except.ok.inj h
          subst hv
          obtain ⟨hlen, hdef, hnn⟩ := ih vs0 hrest
          refine ⟨by simp [hlen], ?_, ?_⟩
          · intro i c hc hobj
            cases i with
            | zero =>
              simp only [List.getElem?_cons_zero, Option.some.injEq] at hc
              subst hc
              rcases hobj with h1 | h1
              · rw [h1] at hget; exact Option.noConfusion hget
              · rw [h1] at hget
                have hjnull : jv = .null := (Option.some.inj hget).symm
                rw [hjnull] at hjv
                simp only [jsonValueToValue] at hjv
                have : getDefaultValue std col.data_type = v0 := Except.ok.inj hjv
                simp [← this]
            | succ i' =>
              simp only [List.getElem?_cons_succ] at hc ⊢
              exact hdef i' c hc hobj
          · intro hp v hv
            rcases List.mem_cons.mp hv with hv0 | hvrest
            · subst hv0
              exact jsonValueToValue_ok_not_null std jv col.data_type v
                (hp col (List.mem_cons_self col rest)) hjv
            · exact hnn (fun c hc => hp c (List.mem_cons_of_mem col hc)) v hvrest
    | none =>
      simp only [hget] at h
      cases hrest : buildValues std fields rest with
      | error e => simp [hrest] at h
      | ok vs0 =>
        simp only [hrest] at h
        have hv : getDefaultValue std col.data_type :: vs0 = vs := Except.ok.inj h
        subst hv
        obtain ⟨hlen, hdef, hnn⟩ := ih vs0 hrest
        refine ⟨by simp [hlen], ?_, ?_⟩
        · intro i c hc hobj
          cases i with
          | zero =>
            simp only [List.getElem?_cons_zero, Option.some.injEq] at hc
            subst hc
            simp
          | succ i' =>
            simp only [List.getElem?_cons_succ] at hc ⊢
            exact hdef i' c hc hobj
        · intro hp v hv
          rcases List.mem_cons.mp hv with hv0 | hvrest
          · subst hv0
            exact getDefaultValue_primitive_not_null std col.data_type
              (hp col (List.mem_cons_self col rest))
          · exact hnn (fun c hc => hp c (List.mem_cons_of_mem col hc)) v hvrest

/-- C10: when a `Tuple` is built from a JSON object against a schema of
primitive-typed columns, every column whose key is absent or whose JSON value
is `null` is populated with the column datatype's default value (0 for the
integer types, 0.0 for the float types, the empty string, `false`) and never
with `Value::Null`; a successfully built tuple contains no `Value::Null`
entries. -/
theorem tuple_from_json_defaults_and_no_nulls (std : RustStd)
    (cols : List ColumnSchema) (fields : List (RStr × JsonValue)) (t : Tuple)
    (hprim : ∀ c ∈ cols, c.data_type.isPrimitive = true)
    (hok : tupleNewFromJson std (Schema.new cols) (.obj fields) = .ok t) :
    t.row.length = cols.length ∧
    (∀ (i : Nat) (c : ColumnSchema), cols[i]? = some c →
      (objGet fields c.name = none ∨ objGet fields c.name = some .null) →
      t.row[i]? = some (getDefaultValue std c.data_type)) ∧
    (∀ v ∈ t.row, v ≠ .null) ∧
    getDefaultValue std .int64 = .int64 0 ∧
    getDefaultValue std .float64 = .float64 f64PosZero ∧
    getDefaultValue std .string = .string [] ∧
    getDefaultValue std .bool = .bool false := by
  simp only [tupleNewFromJson, bind, Except.bind] at hok
  cases hb : buildValues std fields (Schema.new cols).column_schemas with
  | error e => rw [hb] at hok; exact Except.noConfusion hok
  | ok vs =>
    rw [hb] at hok
    have ht : (⟨Schema.new cols, vs⟩ : Tuple) = t := Except.ok.inj hok
    subst ht
    have hcols : (Schema.new cols).column_schemas = cols := rfl
    rw [hcols] at hb
    obtain ⟨h1, h2, h3⟩ := buildValues_spec std fields cols vs hb
    exact ⟨h1, h2, h3 hprim, rfl, rfl, rfl, rfl⟩

/-- C10 witness: at the concrete schema and JSON object above, the built
tuple has one value per column, the absent and null columns carry defaults,
and no entry is `Value::Null`. -/
theorem tuple_from_json_defaults_and_no_nulls_witness :
    c10Tuple.row.length = c10Cols.length ∧ (∀ v ∈ c10Tuple.row, v ≠ .null) := by
  have h := tuple_from_json_defaults_and_no_nulls stdModel0 c10Cols c10Fields
    c10Tuple (by decide) (by rfl)
  exact ⟨h.1, h.2.2.1⟩

/-- C9: on each of the three metadata tables, creating a key that is already
bound returns `AlreadyExists` and leaves the state — in particular the value
stored under that key — unchanged. -/
theorem metadata_create_duplicate_already_exists (st : MetaState)
    (s : StoredStream) (p : StoredPipeline) (c : StoredMqttClientConfig)
    (w1 w2 w3 : List Nat)
    (h1 : tableLookup st.streams s.id = some w1)
    (h2 : tableLookup st.pipelines p.id = some w2)
    (h3 : tableLookup st.sharedMqttConfigs c.key = some w3) :
    createStream st s = (some (.alreadyExists s.id), st) ∧
    tableLookup (createStream st s).2.streams s.id = some w1 ∧
    createPipeline st p = (some (.alreadyExists p.id), st) ∧
    tableLookup (createPipeline st p).2.pipelines p.id = some w2 ∧
    createMqttConfig st c = (some (.alreadyExists c.key), st) ∧
    tableLookup (createMqttConfig st c).2.sharedMqttConfigs c.key = some w3 := by
  have e1 : createStream st s = (some (.alreadyExists s.id), st) := by
    simp [createStream, insertIfAbsent, h1]
  have e2 : createPipeline st p = (some (.alreadyExists p.id), st) := by
    simp [createPipeline, insertIfAbsent, h2]
  have e3 : createMqttConfig st c = (some (.alreadyExists c.key), st) := by
    simp [createMqttConfig, insertIfAbsent, h3]
  exact ⟨e1, by rw [e1]; exact h1, e2, by rw [e2]; exact h2,
    e3, by rw [e3]; exact h3⟩

/-- C9 witness: at the concrete occupied state, all three duplicate creates
fail with `AlreadyExists` and leave the state unchanged. -/
theorem metadata_create_duplicate_already_exists_witness :
    createStream c9State c9Stream = (some (.alreadyExists [115, 49]), c9State) ∧
    tableLookup (createStream c9State c9Stream).2.streams [115, 49] =
      some (encodeRecord (encStoredStream c9Stream)) := by
  have h := metadata_create_duplicate_already_exists c9State c9Stream
    c9Pipeline c9Mqtt
    (encodeRecord (encStoredStream c9Stream))
    (encodeRecord (encStoredPipeline c9Pipeline))
    (encodeRecord (encStoredMqttClientConfig c9Mqtt))
    (by rfl) (by rfl) (by rfl)
  exact ⟨h.1, h.2.1⟩

/-- C2 counterexample: the predicate `a > 15` evaluates to `false` on the
(only) row of the batch, yet the filter routine forwards the entire batch
unchanged — no predicate is evaluated and no row is dropped
(`should_include` is a stub that returns `Ok(true)`). -/
theorem filter_forwards_batch_failing_predicate :
    ScalarExpr.eval c2Predicate [.int64 10] = .ok (.bool false) ∧
    shouldInclude c2Batch = .ok true ∧
    filterRoutine [.ok (.collection c2Batch)] =
      [.control .streamStart, .collection c2Batch] := by
  refine ⟨rfl, rfl, rfl⟩

/-- C2 (amended): the Filter processor's `should_include` is a stub returning
`Ok(true)` for every batch, so every data batch — including an empty one —
is forwarded downstream unchanged; no per-row predicate evaluation and no
empty-batch suppression happen. -/
theorem filter_routine_passes_all_data (batch : RecordBatchM)
    (rest : List RecvItem) :
    shouldInclude batch = .ok true ∧
    staticShouldIncludeStatic batch = .ok true ∧
    filterRoutineGo (.ok (.collection batch) :: rest) =
      .collection batch :: filterRoutineGo rest := by
  refine ⟨rfl, rfl, ?_⟩
  simp [filterRoutineGo, isStopSignal, StreamData.isData, StreamData.asCollection,
    staticShouldIncludeStatic]

/-- C8 counterexample: on the input sequence "upstream `StreamStart`, channel
closed, upstream `StreamEnd`", the filter output carries `StreamStart` twice
(its own plus the forwarded one) and `StreamEnd` twice (the closure converted
by `handle_receive_error` and forwarded without terminating, plus the final
one) — `StreamStart` is not emitted exactly once and the first `StreamEnd` is
not the last envelope. -/
theorem filter_routine_duplicates_control_signals :
    filterRoutine
        [.ok (.control .streamStart), .err .closed, .ok (.control .streamEnd)] =
      [.control .streamStart, .control .streamStart, .control .streamEnd,
        .control .streamEnd] ∧
    (filterRoutine
        [.ok (.control .streamStart), .err .closed,
          .ok (.control .streamEnd)]).count (.control .streamStart) = 2 ∧
    (filterRoutine
        [.ok (.control .streamStart), .err .closed,
          .ok (.control .streamEnd)]).count (.control .streamEnd) = 2 := by
  refine ⟨rfl, rfl, rfl⟩

/-- When the routine consumes an upstream `StreamEnd`, the loop breaks and the
final `StreamEnd` send is the last envelope of the loop's output. -/
theorem filterRoutineGo_getLast_streamEnd (inputs : List RecvItem)
    (h : containsStop inputs = true) :
    (filterRoutineGo inputs).getLast? = some (.control .streamEnd) := by
  induction inputs with
  | nil => simp [containsStop] at h
  | cons item rest ih =>
    cases item with
    | ok d =>
      by_cases hstop : isStopSignal d = true
      · simp [filterRoutineGo, hstop]
      · have hrest : containsStop rest = true := by
          simp only [containsStop, List.any_cons, Bool.or_eq_true] at h
          rcases h with h | h
          · exact absurd h hstop
          · exact h
        have hlast := ih hrest
        simp only [filterRoutineGo, hstop, Bool.false_eq_true, if_false]
        rw [List.getLast?_append, hlast]
        rfl
    | err e =>
      have hrest : containsStop rest = true := by
        simp only [containsStop, List.any_cons, Bool.or_eq_true] at h
        rcases h with h | h
        · exact Bool.noConfusion h
        · exact h
      have hlast := ih hrest
      show (([handleReceiveError e] ++ filterRoutineGo rest).getLast?) = _
      rw [List.getLast?_append, hlast]
      rfl

/-- C8 (amended): on the filter output, the routine's own `StreamStart` is
the first envelope, and whenever the routine terminates (by consuming an
upstream `StreamEnd` signal) its final `StreamEnd` is the last envelope.
Exactly-once emission does not hold: forwarded upstream `StreamStart`
envelopes duplicate the start signal, and a closed upstream channel is
converted into forwarded `StreamEnd` envelopes without terminating the
routine. -/
theorem filter_routine_start_first_end_last (inputs : List RecvItem) :
    (filterRoutine inputs).head? = some (.control .streamStart) ∧
    (containsStop inputs = true →
      (filterRoutine inputs).getLast? = some (.control .streamEnd)) := by
  refine ⟨rfl, fun h => ?_⟩
  have hlast := filterRoutineGo_getLast_streamEnd inputs h
  show (([StreamData.control .streamStart] ++ filterRoutineGo inputs).getLast?) = _
  rw [List.getLast?_append, hlast]
  rfl

/-- C8 amended-claim witness at the concrete input "one upstream
`StreamEnd`". -/
theorem filter_routine_start_first_end_last_witness :
    (filterRoutine [.ok (.control .streamEnd)]).head? =
      some (.control .streamStart) ∧
    (filterRoutine [.ok (.control .streamEnd)]).getLast? =
      some (.control .streamEnd) :=
  ⟨(filter_routine_start_first_end_last [.ok (.control .streamEnd)]).1,
   (filter_routine_start_first_end_last [.ok (.control .streamEnd)]).2 rfl⟩

/-- Logical kind tags are `0`, `1` or `2` — never the decoder tag `3`. -/
theorem logicalNodeTags_no_decoder_tag :
    ∀ n : Nat,
      (∀ l : LogicalPlanT, sizeOf l ≤ n →
        (logicalNodeTags l).filter (fun t => t.2 == 3) = []) ∧
      (∀ ls : LogicalPlanList, sizeOf ls ≤ n →
        (logicalListNodeTags ls).filter (fun t => t.2 == 3) = []) := by
  intro n
  induction n using Nat.strong_induction_on with
  | _ n ih =>
    constructor
    · intro l hsz
      cases l with
      | dataSource index source_name aliasName dk schema =>
        simp [logicalNodeTags]
      | filter index predicate children =>
        have hlt : sizeOf children < n := by
          have : sizeOf children <
              sizeOf (LogicalPlanT.filter index predicate children) := by
            simp; try omega
          omega
        have := (ih _ hlt).2 children le_rfl
        simp [logicalNodeTags, List.filter_cons, this]
      | project index fields children =>
        have hlt : sizeOf children < n := by
          have : sizeOf children <
              sizeOf (LogicalPlanT.project index fields children) := by
            simp; try omega
          omega
        have := (ih _ hlt).2 children le_rfl
        simp [logicalNodeTags, List.filter_cons, this]
    · intro ls hsz
      cases ls with
      | nil => simp [logicalListNodeTags]
      | cons hd tl =>
        have hlt1 : sizeOf hd < n := by
          have : sizeOf hd < sizeOf (LogicalPlanList.cons hd tl) := by
            simp; try omega
          omega
        have hlt2 : sizeOf tl < n := by
          have : sizeOf tl < sizeOf (LogicalPlanList.cons hd tl) := by
            simp; try omega
          omega
        have h1 := (ih _ hlt1).1 hd le_rfl
        have h2 := (ih _ hlt2).2 tl le_rfl
        simp [logicalListNodeTags, List.filter_append, h1, h2]

/-- Lowering preserves the `(index, kind)` sequence node for node (strong
induction on the tree size, jointly with child lists). -/
theorem createPhysicalPlan_tags_aux :
    ∀ n : Nat,
      (∀ (conv : ExprConv) (b : SchemaBinding) (l : LogicalPlanT)
          (p : PhysicalPlanT), sizeOf l ≤ n →
        createPhysicalPlan conv b l = .ok p →
        physicalNodeTags p = logicalNodeTags l) ∧
      (∀ (conv : ExprConv) (b : SchemaBinding) (ls : LogicalPlanList)
          (ps : PhysicalPlanList), sizeOf ls ≤ n →
        createPhysicalPlanList conv b ls = .ok ps →
        physicalListNodeTags ps = logicalListNodeTags ls) := by
  intro n
  induction n using Nat.strong_induction_on with
  | _ n ih =>
    constructor
    · intro conv b l p hsz h
      cases l with
      | dataSource index source_name aliasName dk schema =>
        simp only [createPhysicalPlan, bind, Except.bind] at h
        cases hfb : findBindingEntry source_name aliasName b with
        | error e => simp [hfb] at h
        | ok entry =>
          simp only [hfb] at h
          have hp : PhysicalPlanT.dataSource index source_name aliasName
              entry.schema = p := Except.ok.inj h
          subst hp
          rfl
      | filter index predicate children =>
        simp only [createPhysicalPlan, bind, Except.bind] at h
        cases hch : createPhysicalPlanList conv b children with
        | error e => simp [hch] at h
        | ok pchildren =>
          simp only [hch] at h
          cases hsc : conv.toScalar predicate b with
          | error e => simp [hsc] at h
          | ok scalar =>
            simp only [hsc] at h
            have hp : PhysicalPlanT.filter index predicate scalar pchildren = p :=
              Except.ok.inj h
            subst hp
            have hlt : sizeOf children < n := by
              have : sizeOf children <
                  sizeOf (LogicalPlanT.filter index predicate children) := by
                simp; try omega
              omega
            have := (ih _ hlt).2 conv b children pchildren le_rfl hch
            simp [physicalNodeTags, logicalNodeTags, this]
      | project index fields children =>
        simp only [createPhysicalPlan, bind, Except.bind] at h
        cases hch : createPhysicalPlanList conv b children with
        | error e => simp [hch] at h
        | ok pchildren =>
          simp only [hch] at h
          cases hfs : createPhysicalFields conv b fields with
          | error e => simp [hfs] at h
          | ok pfields =>
            simp only [hfs] at h
            have hp : PhysicalPlanT.project index pfields pchildren = p :=
              Except.ok.inj h
            subst hp
            have hlt : sizeOf children < n := by
              have : sizeOf children <
                  sizeOf (LogicalPlanT.project index fields children) := by
                simp; try omega
              omega
            have := (ih _ hlt).2 conv b children pchildren le_rfl hch
            simp [physicalNodeTags, logicalNodeTags, this]
    · intro conv b ls ps hsz h
      cases ls with
      | nil =>
        simp only [createPhysicalPlanList] at h
        have hp : PhysicalPlanList.nil = ps := Except.ok.inj h
        subst hp
        rfl
      | cons hd tl =>
        simp only [createPhysicalPlanList, bind, Except.bind] at h
        cases hhd : createPhysicalPlan conv b hd with
        | error e => simp [hhd] at h
        | ok phd =>
          simp only [hhd] at h
          cases htl : createPhysicalPlanList conv b tl with
          | error e => simp [htl] at h
          | ok ptl =>
            simp only [htl] at h
            have hp : PhysicalPlanList.cons phd ptl = ps := Except.ok.inj h
            subst hp
            have hlt1 : sizeOf hd < n := by
              have : sizeOf hd < sizeOf (LogicalPlanList.cons hd tl) := by
                simp; try omega
              omega
            have hlt2 : sizeOf tl < n := by
              have : sizeOf tl < sizeOf (LogicalPlanList.cons hd tl) := by
                simp; try omega
              omega
            have h1 := (ih _ hlt1).1 conv b hd phd le_rfl hhd
            have h2 := (ih _ hlt2).2 conv b tl ptl le_rfl htl
            simp [physicalListNodeTags, logicalListNodeTags, h1, h2]

/-- C3 (amended): for every logical plan tree (over the snapshot's logical
kinds `DataSource`/`Filter`/`Project`), successful lowering produces exactly
one physical node per logical node with the same kind, and every physical
node keeps the index of the logical node it was lowered from; **no** Decoder
node is inserted above `DataSource` nodes. -/
theorem physical_lowering_one_node_per_node (conv : ExprConv)
    (bindings : SchemaBinding) (l : LogicalPlanT) (p : PhysicalPlanT)
    (h : createPhysicalPlan conv bindings l = .ok p) :
    physicalNodeTags p = logicalNodeTags l ∧ decoderCount p = 0 := by
  have htags := (createPhysicalPlan_tags_aux (sizeOf l)).1 conv bindings l p
    le_rfl h
  refine ⟨htags, ?_⟩
  have hno3 := (logicalNodeTags_no_decoder_tag (sizeOf l)).1 l le_rfl
  simp [decoderCount, htags, hno3]

/-- C3 counterexample: lowering the concrete `Filter → DataSource` tree
succeeds and produces a physical tree with one `DataSource` below and **zero**
Decoder nodes, contradicting "a Decoder node is inserted directly above each
DataSource node". -/
theorem physical_lowering_inserts_no_decoder :
    createPhysicalPlan exprConv0 c3Bindings c3Logical = .ok c3Physical ∧
    dataSourceCountL c3Logical = 1 ∧
    decoderCount c3Physical = 0 := by
  refine ⟨?_, by rfl, by rfl⟩
  simp [createPhysicalPlan, createPhysicalPlanList, findBindingEntry,
    c3Logical, c3Physical, c3Bindings, exprConv0, bind, Except.bind]

/-- C3 amended-claim witness at the concrete lowering above. -/
theorem physical_lowering_one_node_per_node_witness :
    physicalNodeTags c3Physical = logicalNodeTags c3Logical ∧
    decoderCount c3Physical = 0 := by
  apply physical_lowering_one_node_per_node exprConv0 c3Bindings c3Logical
    c3Physical
  simp [createPhysicalPlan, createPhysicalPlanList, findBindingEntry,
    c3Logical, c3Physical, c3Bindings, exprConv0, bind, Except.bind]

/-! ### Round-trip lemmas, bottom-up -/

/-- Little-endian round-trip. -/
theorem rdLE_encLE (k : Nat) : ∀ (n : Nat) (r : List Nat), n < 256 ^ k →
    rdLE k (encLE k n ++ r) = some (n, r) := by
  induction k with
  | zero =>
    intro n r h
    interval_cases n
    rfl
  | succ k ih =>
    intro n r h
    have hdiv : n / 256 < 256 ^ k := by
      rw [Nat.div_lt_iff_lt_mul (by norm_num)]
      calc n < 256 ^ (k + 1) := h
      _ = 256 ^ k * 256 := by ring
    simp only [encLE, List.cons_append, rdLE, rdByte, bind, Option.bind]
    rw [ih (n / 256) r hdiv]
    simp only [Option.bind_some]
    have : n % 256 + 256 * (n / 256) = n := by omega
    rw [this]

/-- `u32` round-trip. -/
theorem rdU32_encU32 (n : Nat) (r : List Nat) (h : n < 2 ^ 32) :
    rdU32 (encU32 n ++ r) = some (n, r) :=
  rdLE_encLE 4 n r (by norm_num at h ⊢; omega)

/-- `u64` round-trip. -/
theorem rdU64_encU64 (n : Nat) (r : List Nat) (h : n < 2 ^ 64) :
    rdU64 (encU64 n ++ r) = some (n, r) :=
  rdLE_encLE 8 n r (by norm_num at h ⊢; omega)

/-- `i64` round-trip over the `i64` range. -/
theorem rdI64_encI64 (i : Int) (r : List Nat)
    (h : wfI64B i = true) : rdI64 (encI64 i ++ r) = some (i, r) := by
  simp only [wfI64B, i64Min, i64Max, Bool.and_eq_true, decide_eq_true_eq] at h
  obtain ⟨h1, h2⟩ := h
  have hmod : ((i % 2 ^ 64).toNat : Int) = i % 2 ^ 64 := by
    have : (0 : Int) ≤ i % 2 ^ 64 := Int.emod_nonneg i (by norm_num)
    omega
  simp only [rdI64, encI64]
  rw [rdU64_encU64 _ _ (by omega)]
  simp only [Option.map_some']
  congr 1
  by_cases hneg : i < 0
  · have : i % 2 ^ 64 = i + 2 ^ 64 := by omega
    have ht : (i % 2 ^ 64).toNat = (i + 2 ^ 64).toNat := by rw [this]
    rw [ht]
    have hge : ¬((i + 2 ^ 64).toNat < 2 ^ 63) := by omega
    simp only [hge, if_false]
    have hv : ((i + 2 ^ 64).toNat : Int) - 2 ^ 64 = i := by omega
    rw [hv]
  · have heq : i % 2 ^ 64 = i := by omega
    have ht : (i % 2 ^ 64).toNat = i.toNat := by rw [heq]
    rw [ht]
    have hlt : i.toNat < 2 ^ 63 := by omega
    simp only [hlt, if_true]
    have hv : (i.toNat : Int) = i := by omega
    rw [hv]

/-- `bool` round-trip. -/
theorem rdBool_encBool (b : Bool) (r : List Nat) :
    rdBool (encBool b ++ r) = some (b, r) := by
  cases b <;> rfl

/-- Taking exactly the prepended list. -/
theorem takeExact_append (s r : List Nat) :
    takeExact s.length (s ++ r) = some (s, r) := by
  simp [takeExact, List.take_left, List.drop_left]

/-- String round-trip. -/
theorem rdStr_encStr (s : RStr) (r : List Nat) (h : wfStrB s = true) :
    rdStr (encStr s ++ r) = some (s, r) := by
  simp only [wfStrB, decide_eq_true_eq] at h
  simp only [rdStr, encStr, List.append_assoc, bind, Option.bind]
  rw [rdU64_encU64 _ _ h]
  simp [takeExact_append]

/-- `Option` round-trip given an element round-trip on a predicate. -/
theorem rdOption_encOption {α : Type} (p : List Nat → Option (α × List Nat))
    (enc : α → List Nat) (P : α → Prop)
    (hp : ∀ x r, P x → p (enc x ++ r) = some (x, r)) :
    ∀ (o : Option α) (r : List Nat), (∀ x, o = some x → P x) →
      rdOption p (encOption enc o ++ r) = some (o, r) := by
  intro o r ho
  cases o with
  | none => rfl
  | some x =>
    simp only [encOption, List.cons_append, rdOption, rdByte, bind,
      Option.bind]
    norm_num
    simp [hp x r (ho x rfl)]

/-- Element-count round-trip given an element round-trip on a predicate. -/
theorem rdCount_flatMap {α : Type} (p : List Nat → Option (α × List Nat))
    (enc : α → List Nat) (P : α → Prop)
    (hp : ∀ x r, P x → p (enc x ++ r) = some (x, r)) :
    ∀ (xs : List α) (r : List Nat), (∀ x ∈ xs, P x) →
      rdCount p xs.length (xs.flatMap enc ++ r) = some (xs, r) := by
  intro xs
  induction xs with
  | nil => intro r _; rfl
  | cons x rest ih =>
    intro r hall
    simp only [List.flatMap_cons, List.length_cons, List.append_assoc,
      rdCount, bind]
    rw [hp x _ (hall x (List.mem_cons_self x rest))]
    simp only [Option.some_bind]
    rw [ih r (fun y hy => hall y (List.mem_cons_of_mem x hy))]
    rfl

/-- `Vec` round-trip. -/
theorem rdList_encList {α : Type} (p : List Nat → Option (α × List Nat))
    (enc : α → List Nat) (P : α → Prop)
    (hp : ∀ x r, P x → p (enc x ++ r) = some (x, r)) :
    ∀ (xs : List α) (r : List Nat), xs.length < 2 ^ 64 → (∀ x ∈ xs, P x) →
      rdList p (encList enc xs ++ r) = some (xs, r) := by
  intro xs r hlen hall
  simp only [rdList, encList, List.append_assoc, bind]
  rw [rdU64_encU64 _ _ hlen]
  simp only [Option.some_bind]
  exact rdCount_flatMap p enc P hp xs r hall

/-- `char` round-trip for valid scalars. -/
theorem rdChar_encChar (c : Nat) (r : List Nat) (h : wfCharB c = true) :
    rdChar (encChar c ++ r) = some (c, r) := by
  simp only [wfCharB, decide_eq_true_eq] at h
  by_cases h1 : c < 0x80
  · simp only [encChar, h1, if_true, List.cons_append, rdChar, rdByte, bind,
      Option.bind]
    simp [h1]
  · by_cases h2 : c < 0x800
    · have e1 : ¬(0xC0 + c / 64 < 0x80) := by omega
      have e2 : ¬(0xC0 + c / 64 < 0xC0) := by omega
      have e3 : 0xC0 + c / 64 < 0xE0 := by omega
      simp only [encChar, h1, h2, if_true, if_false, List.cons_append, rdChar,
        rdByte, bind, Option.bind]
      simp only [e1, e2, e3, if_true, if_false]
      simp
      omega
    · by_cases h3 : c < 0x10000
      · have e1 : ¬(0xE0 + c / 4096 < 0x80) := by omega
        have e2 : ¬(0xE0 + c / 4096 < 0xC0) := by omega
        have e3 : ¬(0xE0 + c / 4096 < 0xE0) := by omega
        have e4 : 0xE0 + c / 4096 < 0xF0 := by omega
        simp only [encChar, h1, h2, h3, if_true, if_false, List.cons_append,
          rdChar, rdByte, bind, Option.bind]
        simp only [e1, e2, e3, e4, if_true, if_false]
        simp
        omega
      · have e1 : ¬(0xF0 + c / 262144 < 0x80) := by omega
        have e2 : ¬(0xF0 + c / 262144 < 0xC0) := by omega
        have e3 : ¬(0xF0 + c / 262144 < 0xE0) := by omega
        have e4 : ¬(0xF0 + c / 262144 < 0xF0) := by omega
        simp only [encChar, h1, h2, h3, if_true, if_false, List.cons_append,
          rdChar, rdByte, bind, Option.bind]
        simp only [e1, e2, e3, e4, if_true, if_false]
        simp
        omega

/-- An encoded expression is nonempty (at least its variant tag). -/
theorem encExpr_length_pos (e : ExprM) : 0 < (encExpr e).length := by
  cases e <;> simp [encExpr, encU32, encLE]

/-- `Ident` round-trip. -/
theorem rdIdent_encIdent (i : IdentM) (r : List Nat) (h : wfIdentB i = true) :
    rdIdent (encIdent i ++ r) = some (i, r) := by
  obtain ⟨v, q⟩ := i
  simp only [wfIdentB, Bool.and_eq_true] at h
  simp only [rdIdent, encIdent, List.append_assoc, bind]
  rw [rdStr_encStr _ _ h.1]
  simp only [Option.some_bind]
  rw [rdOption_encOption rdChar encChar (fun c => wfCharB c = true)
    rdChar_encChar q r ?_]
  · rfl
  · intro c hc
    rw [hc] at h
    exact h.2

/-- Binary-operator round-trip. -/
theorem rdBinOp_encBinOp (op : BinOpM) (r : List Nat) :
    rdBinOp (encBinOp op ++ r) = some (op, r) := by
  cases op <;> rfl

/-- SQL literal round-trip. -/
theorem rdSqlValue_encSqlValue (v : SqlValueM) (r : List Nat)
    (h : wfExprB (.value v) = true) :
    rdSqlValue (encSqlValue v ++ r) = some (v, r) := by
  cases v with
  | number d long =>
    simp only [wfExprB] at h
    simp only [rdSqlValue, encSqlValue, List.append_assoc, bind]
    rw [rdU32_encU32 0 _ (by norm_num)]
    simp only [Option.some_bind]
    rw [rdStr_encStr _ _ h]
    simp only [Option.some_bind]
    rw [rdBool_encBool]
    rfl
  | singleQuotedString s =>
    simp only [wfExprB] at h
    simp only [rdSqlValue, encSqlValue, List.append_assoc, bind]
    rw [rdU32_encU32 1 _ (by norm_num)]
    simp only [Option.some_bind]
    rw [rdStr_encStr _ _ h]
    rfl

/-- Fuelled expression round-trip: any fuel at least the encoding's length
suffices. -/
theorem rdExprGo_encExpr (e : ExprM) : ∀ (f : Nat) (r : List Nat),
    wfExprB e = true → (encExpr e).length ≤ f →
    rdExprGo f (encExpr e ++ r) = some (e, r) := by
  induction e with
  | ident i =>
    intro f r hwf hf
    match f, hf with
    | f + 1, _ =>
      simp only [rdExprGo, encExpr, List.append_assoc, bind]
      rw [rdU32_encU32 0 _ (by norm_num)]
      simp only [Option.some_bind]
      rw [rdIdent_encIdent i r hwf]
      rfl
    | 0, hf =>
      exact absurd hf (by have := encExpr_length_pos (.ident i); omega)
  | compoundIdent parts =>
    intro f r hwf hf
    simp only [wfExprB, Bool.and_eq_true, wfLenB, decide_eq_true_eq,
      List.all_eq_true] at hwf
    match f, hf with
    | f + 1, _ =>
      simp only [rdExprGo, encExpr, List.append_assoc, bind]
      rw [rdU32_encU32 1 _ (by norm_num)]
      simp only [Option.some_bind]
      rw [rdList_encList rdIdent encIdent (fun i => wfIdentB i = true)
        rdIdent_encIdent parts r hwf.1 hwf.2]
      rfl
    | 0, hf =>
      exact absurd hf (by have := encExpr_length_pos (.compoundIdent parts); omega)
  | binaryOp l op rgt ihl ihr =>
    intro f r hwf hf
    simp only [wfExprB, Bool.and_eq_true] at hwf
    match f, hf with
    | f + 1, hf =>
      have hlen : (encExpr (.binaryOp l op rgt)).length =
          4 + ((encExpr l).length + (4 + (encExpr rgt).length)) := by
        simp [encExpr, encBinOp, encU32, encLE]
        omega
      simp only [rdExprGo, encExpr, List.append_assoc, bind]
      rw [rdU32_encU32 2 _ (by norm_num)]
      simp only [Option.some_bind]
      rw [ihl f _ hwf.1 (by rw [hlen] at hf; omega)]
      simp only [Option.some_bind]
      rw [rdBinOp_encBinOp]
      simp only [Option.some_bind]
      rw [ihr f r hwf.2 (by rw [hlen] at hf; omega)]
      rfl
    | 0, hf =>
      exact absurd hf (by have := encExpr_length_pos (.binaryOp l op rgt); omega)
  | value v =>
    intro f r hwf hf
    match f, hf with
    | f + 1, _ =>
      simp only [rdExprGo, encExpr, List.append_assoc, bind]
      rw [rdU32_encU32 3 _ (by norm_num)]
      simp only [Option.some_bind]
      rw [rdSqlValue_encSqlValue v r hwf]
      rfl
    | 0, hf =>
      exact absurd hf (by have := encExpr_length_pos (.value v); omega)

/-- Expression round-trip (the reader derives its fuel from the input
length, which always suffices). -/
theorem rdExpr_encExpr (e : ExprM) (r : List Nat) (h : wfExprB e = true) :
    rdExpr (encExpr e ++ r) = some (e, r) := by
  simp only [rdExpr]
  exact rdExprGo_encExpr e _ r h (by simp)

/-- `ProjectFieldIR` round-trip. -/
theorem rdProjectField_enc (f : ProjectFieldIR) (r : List Nat)
    (h : wfProjectFieldB f = true) :
    rdProjectField (encProjectField f ++ r) = some (f, r) := by
  obtain ⟨n, e⟩ := f
  simp only [wfProjectFieldB, Bool.and_eq_true] at h
  simp only [rdProjectField, encProjectField, List.append_assoc, bind]
  rw [rdStr_encStr _ _ h.1]
  simp only [Option.some_bind]
  rw [rdExpr_encExpr _ _ h.2]
  rfl

/-- `AggregateExprIR` round-trip. -/
theorem rdAggregateExpr_enc (a : AggregateExprIR) (r : List Nat)
    (h : wfAggExprB a = true) :
    rdAggregateExpr (encAggregateExpr a ++ r) = some (a, r) := by
  obtain ⟨n, e⟩ := a
  simp only [wfAggExprB, Bool.and_eq_true] at h
  simp only [rdAggregateExpr, encAggregateExpr, List.append_assoc, bind]
  rw [rdStr_encStr _ _ h.1]
  simp only [Option.some_bind]
  rw [rdExpr_encExpr _ _ h.2]
  rfl

/-- `TimeUnitIR` round-trip. -/
theorem rdTimeUnit_enc (tu : TimeUnitIR) (r : List Nat) :
    rdTimeUnit (encTimeUnit tu ++ r) = some (tu, r) := by
  cases tu
  rfl

/-- `WindowIR` round-trip. -/
theorem rdWindow_enc (w : WindowIR) (r : List Nat) (h : wfWindowB w = true) :
    rdWindow (encWindow w ++ r) = some (w, r) := by
  cases w with
  | tumbling tu len =>
    simp only [wfWindowB, decide_eq_true_eq] at h
    simp only [rdWindow, encWindow, List.append_assoc, bind]
    rw [rdU32_encU32 0 _ (by norm_num)]
    simp only [Option.some_bind]
    rw [rdTimeUnit_enc]
    simp only [Option.some_bind]
    rw [rdU64_encU64 _ _ h]
    rfl
  | count c =>
    simp only [wfWindowB, decide_eq_true_eq] at h
    simp only [rdWindow, encWindow, List.append_assoc, bind]
    rw [rdU32_encU32 1 _ (by norm_num)]
    simp only [Option.some_bind]
    rw [rdU64_encU64 _ _ h]
    rfl
  | sliding tu lb la =>
    simp only [wfWindowB, Bool.and_eq_true, decide_eq_true_eq] at h
    simp only [rdWindow, encWindow, List.append_assoc, bind]
    rw [rdU32_encU32 2 _ (by norm_num)]
    simp only [Option.some_bind]
    rw [rdTimeUnit_enc]
    simp only [Option.some_bind]
    rw [rdU64_encU64 _ _ h.1]
    simp only [Option.some_bind]
    rw [rdOption_encOption rdU64 encU64 (fun x => x < 2 ^ 64)
      (fun x r hx => rdU64_encU64 x r hx) la r ?_]
    · rfl
    · intro x hx
      rw [hx] at h
      simpa using h.2
  | state o e pb =>
    simp only [wfWindowB, Bool.and_eq_true, wfLenB, decide_eq_true_eq,
      List.all_eq_true] at h
    simp only [rdWindow, encWindow, List.append_assoc, bind]
    rw [rdU32_encU32 3 _ (by norm_num)]
    simp only [Option.some_bind]
    rw [rdExpr_encExpr _ _ h.1.1.1]
    simp only [Option.some_bind]
    rw [rdExpr_encExpr _ _ h.1.1.2]
    simp only [Option.some_bind]
    rw [rdList_encList rdExpr encExpr (fun x => wfExprB x = true)
      rdExpr_encExpr pb r h.1.2 h.2]
    rfl

/-- Empty-JSON-map round-trip (`deserialize_map` reads the zero count and
stops). -/
theorem rdJsonMap_encJsonMap_nil (r : List Nat) :
    rdJsonMap (encJsonMap [] ++ r) = some ([], r) := rfl

/-- `LogicalPlanNodeKindIR` round-trip on decodable kinds. -/
theorem rdLogicalKind_enc (k : LogicalPlanNodeKindIR) (r : List Nat)
    (h : decodableLogicalKindB k = true) :
    rdLogicalKind (encLogicalKind k ++ r) = some (k, r) := by
  cases k with
  | dataSource stream an =>
    simp only [decodableLogicalKindB, Bool.and_eq_true] at h
    simp only [rdLogicalKind, encLogicalKind, List.append_assoc, bind]
    rw [rdU32_encU32 0 _ (by norm_num)]
    simp only [Option.some_bind]
    rw [rdStr_encStr _ _ h.1]
    simp only [Option.some_bind]
    rw [rdOption_encOption rdStr encStr (fun s => wfStrB s = true)
      rdStr_encStr an r ?_]
    · rfl
    · intro x hx
      rw [hx] at h
      exact h.2
  | window w =>
    simp only [decodableLogicalKindB] at h
    simp only [rdLogicalKind, encLogicalKind, List.append_assoc, bind]
    rw [rdU32_encU32 1 _ (by norm_num)]
    simp only [Option.some_bind]
    rw [rdWindow_enc _ _ h]
    rfl
  | aggregation gb ags =>
    simp only [decodableLogicalKindB, Bool.and_eq_true, wfLenB,
      decide_eq_true_eq, List.all_eq_true] at h
    simp only [rdLogicalKind, encLogicalKind, List.append_assoc, bind]
    rw [rdU32_encU32 2 _ (by norm_num)]
    simp only [Option.some_bind]
    rw [rdList_encList rdExpr encExpr (fun x => wfExprB x = true)
      rdExpr_encExpr gb _ h.1.1.1 h.1.1.2]
    simp only [Option.some_bind]
    rw [rdList_encList rdAggregateExpr encAggregateExpr
      (fun a => wfAggExprB a = true) rdAggregateExpr_enc ags r h.1.2 h.2]
    rfl
  | filter p =>
    simp only [decodableLogicalKindB] at h
    simp only [rdLogicalKind, encLogicalKind, List.append_assoc, bind]
    rw [rdU32_encU32 3 _ (by norm_num)]
    simp only [Option.some_bind]
    rw [rdExpr_encExpr _ _ h]
    rfl
  | project fs =>
    simp only [decodableLogicalKindB, Bool.and_eq_true, wfLenB,
      decide_eq_true_eq, List.all_eq_true] at h
    simp only [rdLogicalKind, encLogicalKind, List.append_assoc, bind]
    rw [rdU32_encU32 4 _ (by norm_num)]
    simp only [Option.some_bind]
    rw [rdList_encList rdProjectField encProjectField
      (fun f => wfProjectFieldB f = true) rdProjectField_enc fs r h.1 h.2]
    rfl
  | tail =>
    simp only [rdLogicalKind, encLogicalKind, List.append_assoc, bind]
    rw [rdU32_encU32 5 _ (by norm_num)]
    rfl
  | dataSink sinks => exact absurd h (by simp [decodableLogicalKindB])
  | opaqueNode pt =>
    simp only [decodableLogicalKindB] at h
    simp only [rdLogicalKind, encLogicalKind, List.append_assoc, bind]
    rw [rdU32_encU32 7 _ (by norm_num)]
    simp only [Option.some_bind]
    rw [rdStr_encStr _ _ h]
    rfl

/-- `LogicalPlanNodeIR` round-trip on decodable nodes. -/
theorem rdLogicalNode_enc (n : LogicalPlanNodeIR) (r : List Nat)
    (h : decodableLogicalNodeB n = true) :
    rdLogicalNode (encLogicalNode n ++ r) = some (n, r) := by
  obtain ⟨i, k, cs⟩ := n
  simp only [decodableLogicalNodeB, Bool.and_eq_true, wfLenB,
    decide_eq_true_eq, List.all_eq_true] at h
  simp only [rdLogicalNode, encLogicalNode, List.append_assoc, bind]
  rw [rdI64_encI64 _ _ h.1.1.1]
  simp only [Option.some_bind]
  rw [rdLogicalKind_enc _ _ h.1.1.2]
  simp only [Option.some_bind]
  rw [rdList_encList rdI64 encI64 (fun x => wfI64B x = true)
    rdI64_encI64 cs r h.1.2 h.2]
  rfl

/-- `LogicalPlanIR` round-trip on decodable IRs. -/
theorem rdLogicalIR_enc (ir : LogicalPlanIR) (r : List Nat)
    (h : decodableLogicalIRB ir = true) :
    rdLogicalIR (encLogicalIR ir ++ r) = some (ir, r) := by
  obtain ⟨root, nodes⟩ := ir
  simp only [decodableLogicalIRB, Bool.and_eq_true, wfLenB,
    decide_eq_true_eq, List.all_eq_true] at h
  simp only [rdLogicalIR, encLogicalIR, List.append_assoc, bind]
  rw [rdI64_encI64 _ _ h.1.1]
  simp only [Option.some_bind]
  rw [rdList_encList rdLogicalNode encLogicalNode
    (fun n => decodableLogicalNodeB n = true) rdLogicalNode_enc nodes r
    h.1.2 h.2]
  rfl

/-- `PhysicalPlanNodeKindIR` round-trip on decodable kinds. -/
theorem rdPhysicalKind_enc (k : PhysicalPlanNodeKindIR) (r : List Nat)
    (h : decodablePhysicalKindB k = true) :
    rdPhysicalKind (encPhysicalKind k ++ r) = some (k, r) := by
  cases k with
  | dataSource stream an =>
    simp only [decodablePhysicalKindB, Bool.and_eq_true] at h
    simp only [rdPhysicalKind, encPhysicalKind, List.append_assoc, bind]
    rw [rdU32_encU32 0 _ (by norm_num)]
    simp only [Option.some_bind]
    rw [rdStr_encStr _ _ h.1]
    simp only [Option.some_bind]
    rw [rdOption_encOption rdStr encStr (fun s => wfStrB s = true)
      rdStr_encStr an r ?_]
    · rfl
    · intro x hx
      rw [hx] at h
      exact h.2
  | decoder dk props =>
    simp only [decodablePhysicalKindB, Bool.and_eq_true,
      List.isEmpty_iff] at h
    obtain ⟨hdk, hprops⟩ := h
    subst hprops
    simp only [rdPhysicalKind, encPhysicalKind, List.append_assoc, bind]
    rw [rdU32_encU32 1 _ (by norm_num)]
    simp only [Option.some_bind]
    rw [rdStr_encStr _ _ hdk]
    simp only [Option.some_bind]
    rw [rdJsonMap_encJsonMap_nil]
    rfl
  | filter p =>
    simp only [decodablePhysicalKindB] at h
    simp only [rdPhysicalKind, encPhysicalKind, List.append_assoc, bind]
    rw [rdU32_encU32 2 _ (by norm_num)]
    simp only [Option.some_bind]
    rw [rdExpr_encExpr _ _ h]
    rfl
  | project fs =>
    simp only [decodablePhysicalKindB, Bool.and_eq_true, wfLenB,
      decide_eq_true_eq, List.all_eq_true] at h
    simp only [rdPhysicalKind, encPhysicalKind, List.append_assoc, bind]
    rw [rdU32_encU32 3 _ (by norm_num)]
    simp only [Option.some_bind]
    rw [rdList_encList rdProjectField encProjectField
      (fun f => wfProjectFieldB f = true) rdProjectField_enc fs r h.1 h.2]
    rfl
  | encoder ek props =>
    simp only [decodablePhysicalKindB, Bool.and_eq_true,
      List.isEmpty_iff] at h
    obtain ⟨hek, hprops⟩ := h
    subst hprops
    simp only [rdPhysicalKind, encPhysicalKind, List.append_assoc, bind]
    rw [rdU32_encU32 4 _ (by norm_num)]
    simp only [Option.some_bind]
    rw [rdStr_encStr _ _ hek]
    simp only [Option.some_bind]
    rw [rdJsonMap_encJsonMap_nil]
    rfl
  | dataSink sink epi => exact absurd h (by simp [decodablePhysicalKindB])
  | resultCollect =>
    simp only [rdPhysicalKind, encPhysicalKind, List.append_assoc, bind]
    rw [rdU32_encU32 6 _ (by norm_num)]
    rfl
  | opaqueNode pt =>
    simp only [decodablePhysicalKindB] at h
    simp only [rdPhysicalKind, encPhysicalKind, List.append_assoc, bind]
    rw [rdU32_encU32 7 _ (by norm_num)]
    simp only [Option.some_bind]
    rw [rdStr_encStr _ _ h]
    rfl

/-- `PhysicalPlanNodeIR` round-trip on decodable nodes. -/
theorem rdPhysicalNode_enc (n : PhysicalPlanNodeIR) (r : List Nat)
    (h : decodablePhysicalNodeB n = true) :
    rdPhysicalNode (encPhysicalNode n ++ r) = some (n, r) := by
  obtain ⟨i, k, cs⟩ := n
  simp only [decodablePhysicalNodeB, Bool.and_eq_true, wfLenB,
    decide_eq_true_eq, List.all_eq_true] at h
  simp only [rdPhysicalNode, encPhysicalNode, List.append_assoc, bind]
  rw [rdI64_encI64 _ _ h.1.1.1]
  simp only [Option.some_bind]
  rw [rdPhysicalKind_enc _ _ h.1.1.2]
  simp only [Option.some_bind]
  rw [rdList_encList rdI64 encI64 (fun x => wfI64B x = true)
    rdI64_encI64 cs r h.1.2 h.2]
  rfl

/-- `PhysicalPlanIR` round-trip on decodable IRs. -/
theorem rdPhysicalIR_enc (ir : PhysicalPlanIR) (r : List Nat)
    (h : decodablePhysicalIRB ir = true) :
    rdPhysicalIR (encPhysicalIR ir ++ r) = some (ir, r) := by
  obtain ⟨root, nodes⟩ := ir
  simp only [decodablePhysicalIRB, Bool.and_eq_true, wfLenB,
    decide_eq_true_eq, List.all_eq_true] at h
  simp only [rdPhysicalIR, encPhysicalIR, List.append_assoc, bind]
  rw [rdI64_encI64 _ _ h.1.1]
  simp only [Option.some_bind]
  rw [rdList_encList rdPhysicalNode encPhysicalNode
    (fun n => decodablePhysicalNodeB n = true) rdPhysicalNode_enc nodes r
    h.1.2 h.2]
  rfl

/-- C1 counterexample: the snapshot of a logical plan with a `DataSink` node
encodes fine, but `decode_logical` fails with `Deserialize` —
`serde_json::Value` cannot be deserialized from bincode
(`deserialize_any` is unsupported) — so `decode(encode(x)) == x` fails for
plans the planner produces, while `decode_physical` of the same snapshot
still succeeds. -/
theorem plan_snapshot_datasink_not_roundtrip :
    ∃ s, planSnapshotBytesNew [] [] c1BadLir c1GoodPir = .ok s ∧
      s.decodeLogical = .error PlanCacheCodecError.deserialize ∧
      s.decodePhysical = .ok c1GoodPir :=
  ⟨_, rfl, rfl, rfl⟩

/-- C1 (amended): for logical and physical IRs within bincode's
deserializable fragment — no `DataSink` nodes, `Decoder`/`Encoder` props
empty, `usize`/`i64`/`char` fields in range — `PlanSnapshotBytes::new`
followed by `decode_logical`/`decode_physical` returns the original IRs. -/
theorem plan_snapshot_roundtrip (fp bid : RStr) (lir : LogicalPlanIR)
    (pir : PhysicalPlanIR) (hl : decodableLogicalIRB lir = true)
    (hp : decodablePhysicalIRB pir = true) :
    ∃ s, planSnapshotBytesNew fp bid lir pir = .ok s ∧
      s.decodeLogical = .ok lir ∧ s.decodePhysical = .ok pir := by
  refine ⟨_, rfl, ?_, ?_⟩
  · show decodeLogicalIR (encLogicalIR lir) = .ok lir
    have h := rdLogicalIR_enc lir [] hl
    rw [List.append_nil] at h
    simp only [decodeLogicalIR, h]
  · show decodePhysicalIR (encPhysicalIR pir) = .ok pir
    have h := rdPhysicalIR_enc pir [] hp
    rw [List.append_nil] at h
    simp only [decodePhysicalIR, h]

/-- C1 witness: concrete round-trip through a snapshot holding a three-node
physical plan (with a `Decoder`) and a two-node logical plan. -/
theorem plan_snapshot_roundtrip_witness :
    ∃ s, planSnapshotBytesNew [] [] c1Lir c1Pir = .ok s ∧
      s.decodeLogical = .ok c1Lir ∧ s.decodePhysical = .ok c1Pir :=
  plan_snapshot_roundtrip [] [] c1Lir c1Pir (by decide) (by decide)

/-- C6 counterexample: `PlanCacheCodecError` has no `UnsupportedVersion` or
`Corrupted` variant at all — its only inhabitants are `Serialize` and
`Deserialize` — and decoding truncated bytes fails with `Deserialize`. -/
theorem plan_cache_no_unsupported_version :
    (∀ e : PlanCacheCodecError, e = .serialize ∨ e = .deserialize) ∧
      decodeLogicalIR [1, 2, 3] = .error PlanCacheCodecError.deserialize := by
  refine ⟨fun e => ?_, rfl⟩
  cases e
  · exact Or.inl rfl
  · exact Or.inr rfl

/-- C6 (amended): the plan-cache decoders never distinguish failure causes:
there is no version check (`PlanSnapshotBytes` has no `format_version`
field), and every input either decodes to `Ok` or fails with the single
`Deserialize` error — truncated and garbage bytes included. -/
theorem plan_cache_decode_error_is_deserialize :
    (∀ raw : List Nat, (∃ ir, decodeLogicalIR raw = .ok ir) ∨
        decodeLogicalIR raw = .error PlanCacheCodecError.deserialize) ∧
    (∀ raw : List Nat, (∃ ir, decodePhysicalIR raw = .ok ir) ∨
        decodePhysicalIR raw = .error PlanCacheCodecError.deserialize) := by
  constructor
  · intro raw
    unfold decodeLogicalIR
    cases h : rdLogicalIR raw with
    | none => exact Or.inr rfl
    | some p =>
      obtain ⟨ir, rest⟩ := p
      exact Or.inl ⟨ir, rfl⟩
  · intro raw
    unfold decodePhysicalIR
    cases h : rdPhysicalIR raw with
    | none => exact Or.inr rfl
    | some p =>
      obtain ⟨ir, rest⟩ := p
      exact Or.inl ⟨ir, rfl⟩

end RsFlow
